import Mathlib

/-!
Verification development for the poker-arena game engine.

The definitions below are a shallow embedding of the TypeScript sources:

* `src/lib/poker/types.ts`        — data model (cards, seats, hands, tables)
* `src/lib/poker/hand-evaluator.ts` — best-5 hand evaluation and comparison
* `src/lib/poker/table.ts` (bundled into `src/lib/db/index.ts` in the
  snapshot)                       — seat lifecycle and clockwise scans
* `src/lib/poker/hand-manager.ts` — the per-hand state machine
* `src/lib/game/game-manager.ts`  — rebuy, tick-loop error recovery
* `src/app/api/leaderboard/route.ts` — unrealized P/L merge

JavaScript numbers are modelled as `Int` (all chip amounts are integers in
the engine), JS arrays as `List`, and JS `Map` (which preserves insertion
order) as insertion-ordered association lists.  In-place mutation is
modelled by explicit state passing; `table.currentHand` aliases the hand
being processed in the source, which is modelled by re-pointing
`currentHand` at the resulting hand when an operation returns.
-/

/-- Card suit, source `Suit = 'h' | 'd' | 'c' | 's'`. -/
inductive Suit where
  | h | d | c | s
deriving DecidableEq, Repr, Fintype

/-- Card rank, source `Rank = '2' | ... | 'A'`. -/
inductive Rank where
  | two | three | four | five | six | seven | eight | nine
  | ten | jack | queen | king | ace
deriving DecidableEq, Repr

/-- Source `Card` record. -/
structure Card where
  rank : Rank
  suit : Suit
deriving DecidableEq, Repr

/-- Source `RANK_VALUES` table: 2..9 map to themselves, T=10, J=11, Q=12, K=13, A=14. -/
def rankValue : Rank → Nat
  | .two => 2 | .three => 3 | .four => 4 | .five => 5 | .six => 6
  | .seven => 7 | .eight => 8 | .nine => 9 | .ten => 10
  | .jack => 11 | .queen => 12 | .king => 13 | .ace => 14

/-- Source `RANKS` array (ascending order, as in the object literal). -/
def RANKS : List Rank :=
  [.two, .three, .four, .five, .six, .seven, .eight, .nine, .ten,
   .jack, .queen, .king, .ace]

/-- Display string of a rank, as interpolated into hand names in the source. -/
def rankStr : Rank → String
  | .two => "2" | .three => "3" | .four => "4" | .five => "5" | .six => "6"
  | .seven => "7" | .eight => "8" | .nine => "9" | .ten => "T"
  | .jack => "J" | .queen => "Q" | .king => "K" | .ace => "A"

/-- Insert `x` into a list sorted by comparator semantics: `x` is placed after
every element `y` with `le y x`.  Helper for `jsSortBy`. -/
def insertSorted (le : α → α → Bool) (x : α) : List α → List α
  | [] => [x]
  | y :: ys => if le y x then y :: insertSorted le x ys else x :: y :: ys

/-- Stable comparator sort modelling JS `Array.prototype.sort(cmp)` (ascending
in `cmp`, stable as the ECMAScript spec requires): elements are inserted in
original order, each after all already-placed elements that do not compare
greater. -/
def jsSortBy (cmp : α → α → Int) (l : List α) : List α :=
  l.foldl (fun acc x => insertSorted (fun y z => cmp y z ≤ 0) x acc) []

/-- Source `HandRank` enum values. -/
def HandRank.HIGH_CARD : Nat := 0
def HandRank.ONE_PAIR : Nat := 1
def HandRank.TWO_PAIR : Nat := 2
def HandRank.THREE_OF_A_KIND : Nat := 3
def HandRank.STRAIGHT : Nat := 4
def HandRank.FLUSH : Nat := 5
def HandRank.FULL_HOUSE : Nat := 6
def HandRank.FOUR_OF_A_KIND : Nat := 7
def HandRank.STRAIGHT_FLUSH : Nat := 8
def HandRank.ROYAL_FLUSH : Nat := 9

/-- Source `EvaluatedHand` record (rank is the numeric enum value). -/
structure EvaluatedHand where
  rank : Nat
  values : List Nat
  cards : List Card
  name : String
deriving DecidableEq, Repr

/-- Remaining comparison once the first value list is exhausted: its entries
read as 0 against the rest of the second list. -/
def cmpTailZero : List Nat → Int
  | [] => 0
  | y :: ys => if y ≠ 0 then -(y : Int) else cmpTailZero ys

/-- Tiebreaker comparison loop of `compareHands`: first index where the
(0-padded) value lists differ decides, as an `Int` difference. -/
def cmpValues : List Nat → List Nat → Int
  | [], ys => cmpTailZero ys
  | x :: xs, ys =>
    if x ≠ ys.headD 0 then (x : Int) - (ys.headD 0 : Int) else cmpValues xs ys.tail

/-- Source `compareHands`: positive iff `a` wins, negative iff `b` wins, 0 on tie. -/
def compareHands (a b : EvaluatedHand) : Int :=
  if a.rank ≠ b.rank then (a.rank : Int) - (b.rank : Int)
  else cmpValues a.values b.values

/-- Source `checkStraight`: consecutive descending values each differ by 1.
Note `Nat` subtraction truncates at 0 exactly where the JS difference would be
negative, and a negative difference also fails the `=== 1` test there. -/
def checkStraight : List Nat → Bool
  | a :: b :: rest => (a - b == 1) && checkStraight (b :: rest)
  | _ => true

/-- Source `checkAceLowStraight`: sorted values are exactly `[14, 5, 4, 3, 2]`. -/
def checkAceLowStraight (values : List Nat) : Bool :=
  values == [14, 5, 4, 3, 2]

/-- Update an insertion-ordered association list the way JS `Map.set` does:
replace in place if the key is present, else append. -/
def upsert [BEq κ] (k : κ) (v : β) (l : List (κ × β)) : List (κ × β) :=
  if l.any (fun p => p.1 == k) then
    l.map (fun p => if p.1 == k then (k, v) else p)
  else l ++ [(k, v)]

/-- Source `getGroups`: group the five cards by rank (JS `Map` insertion
order), then sort groups by size descending, breaking ties by rank value
descending.  Each group is the list of repeated ranks, as in the source. -/
def getGroups (cards : List Card) : List (List Rank) :=
  let m := cards.foldl (fun acc c =>
    upsert c.rank ((((acc.find? (fun p => p.1 == c.rank)).map Prod.snd).getD []) ++ [c.rank]) acc) []
  jsSortBy (fun a b =>
    if a.length ≠ b.length then (b.length : Int) - (a.length : Int)
    else (rankValue (b.headD .two) : Int) - (rankValue (a.headD .two) : Int))
    (m.map Prod.snd)

/-- Source `pairName`: display name of the rank with the given numeric value. -/
def pairName (v : Nat) : String :=
  ((RANKS.find? (fun r => rankValue r == v)).map rankStr).getD (toString v)

/-- Default rank used where the source dereferences a lookup it knows
succeeds via `!`; the defaults are unreachable for 5-card inputs. -/
def dfltRank : Rank := .two

/-- Source `evaluate5`: classify exactly five cards. -/
def evaluate5 (cards : List Card) : EvaluatedHand :=
  let sorted := jsSortBy (fun a b => (rankValue b.rank : Int) - (rankValue a.rank : Int)) cards
  let values := sorted.map (fun c => rankValue c.rank)
  let isFlush := match sorted with
    | [] => true
    | c0 :: _ => sorted.all (fun c => c.suit == c0.suit)
  let isStraight := checkStraight values
  let isAceLow := checkAceLowStraight values
  let groups := getGroups sorted
  let groupCounts := jsSortBy (fun (a b : Nat) => (b : Int) - (a : Int)) (groups.map List.length)
  let topRankStr := rankStr ((sorted.headD ⟨dfltRank, .h⟩).rank)
  if isFlush && isStraight then
    if values.headD 0 == 14 then
      { rank := HandRank.ROYAL_FLUSH, values := [14], cards := sorted, name := "Royal Flush" }
    else
      { rank := HandRank.STRAIGHT_FLUSH, values := [values.headD 0], cards := sorted,
        name := "Straight Flush (" ++ topRankStr ++ " high)" }
  else if isFlush && isAceLow then
    { rank := HandRank.STRAIGHT_FLUSH, values := [5], cards := sorted,
      name := "Straight Flush (5 high)" }
  else if groupCounts.headD 0 == 4 then
    let quadRank := ((groups.find? (fun g => g.length == 4)).getD []).headD dfltRank
    let kicker := ((groups.find? (fun g => g.length ≠ 4)).getD []).headD dfltRank
    { rank := HandRank.FOUR_OF_A_KIND, values := [rankValue quadRank, rankValue kicker],
      cards := sorted, name := "Four of a Kind (" ++ rankStr quadRank ++ "s)" }
  else if groupCounts.headD 0 == 3 && groupCounts.getD 1 0 == 2 then
    let tripRank := ((groups.find? (fun g => g.length == 3)).getD []).headD dfltRank
    let pairRank := ((groups.find? (fun g => g.length == 2)).getD []).headD dfltRank
    { rank := HandRank.FULL_HOUSE, values := [rankValue tripRank, rankValue pairRank],
      cards := sorted,
      name := "Full House (" ++ rankStr tripRank ++ "s full of " ++ rankStr pairRank ++ "s)" }
  else if isFlush then
    { rank := HandRank.FLUSH, values := values, cards := sorted,
      name := "Flush (" ++ topRankStr ++ " high)" }
  else if isStraight then
    { rank := HandRank.STRAIGHT, values := [values.headD 0], cards := sorted,
      name := "Straight (" ++ topRankStr ++ " high)" }
  else if isAceLow then
    { rank := HandRank.STRAIGHT, values := [5], cards := sorted, name := "Straight (5 high)" }
  else if groupCounts.headD 0 == 3 then
    let tripRank := ((groups.find? (fun g => g.length == 3)).getD []).headD dfltRank
    let kickers := jsSortBy (fun (a b : Nat) => (b : Int) - (a : Int))
      ((groups.filter (fun g => g.length == 1)).map (fun g => rankValue (g.headD dfltRank)))
    { rank := HandRank.THREE_OF_A_KIND, values := rankValue tripRank :: kickers,
      cards := sorted, name := "Three of a Kind (" ++ rankStr tripRank ++ "s)" }
  else if groupCounts.headD 0 == 2 && groupCounts.getD 1 0 == 2 then
    let pairs := jsSortBy (fun (a b : Nat) => (b : Int) - (a : Int))
      ((groups.filter (fun g => g.length == 2)).map (fun g => rankValue (g.headD dfltRank)))
    let kicker := (groups.find? (fun g => g.length == 1)).getD []
    { rank := HandRank.TWO_PAIR,
      values := pairs ++ [rankValue (kicker.headD dfltRank)], cards := sorted,
      name := "Two Pair (" ++ pairName (pairs.headD 0) ++ "s and "
        ++ pairName (pairs.getD 1 0) ++ "s)" }
  else if groupCounts.headD 0 == 2 then
    let pairRank := ((groups.find? (fun g => g.length == 2)).getD []).headD dfltRank
    let kickers := jsSortBy (fun (a b : Nat) => (b : Int) - (a : Int))
      ((groups.filter (fun g => g.length == 1)).map (fun g => rankValue (g.headD dfltRank)))
    { rank := HandRank.ONE_PAIR, values := rankValue pairRank :: kickers,
      cards := sorted, name := "Pair of " ++ rankStr pairRank ++ "s" }
  else
    { rank := HandRank.HIGH_CARD, values := values, cards := sorted,
      name := "High Card (" ++ topRankStr ++ ")" }

/-- Source `getCombinations`: all `C(n, k)` subsequences, combinations that
include the head listed before those that exclude it.  (The source's early
`arr.length < k` return only prunes branches that produce `[]` anyway.) -/
def getCombinations : List α → Nat → List (List α)
  | _, 0 => [[]]
  | [], _ + 1 => []
  | a :: rest, k + 1 =>
    (getCombinations rest k).map (fun c => a :: c) ++ getCombinations rest (k + 1)

/-- Placeholder result where the source `evaluateHand` would throw on fewer
than five cards; unreachable in every use in this development. -/
def emptyEval : EvaluatedHand := { rank := 0, values := [], cards := [], name := "" }

/-- Source `evaluateHand`: best 5-card hand among all 5-card combinations,
keeping the first of equal-strength candidates exactly as the source's
strict `> 0` comparison does. -/
def evaluateHand (cards : List Card) : EvaluatedHand :=
  let combos := getCombinations cards 5
  (combos.foldl (fun best c =>
    let e := evaluate5 c
    match best with
    | none => some e
    | some b => if compareHands e b > 0 then some e else some b) none).getD emptyEval

/-- Agent type, source `Agent['type']`. -/
inductive AgentType where
  | human | house_fish | house_tag | house_lag
deriving DecidableEq, Repr

/-- Source `Agent` record. -/
structure Agent where
  id : String
  name : String
  type : AgentType
  totalProfit : Int
  handsPlayed : Nat
  handsWon : Nat
  walletAddress : Option String := none
deriving DecidableEq, Repr

/-- Source `Seat` record. -/
structure Seat where
  seatNumber : Nat
  agent : Option Agent
  stack : Int
  holeCards : List Card
  isSittingOut : Bool
  currentBet : Int
  hasActed : Bool
  hasFolded : Bool
  isAllIn : Bool
  buyIn : Int
deriving DecidableEq, Repr

/-- Source `ActionType` (`'all-in'` is spelled `allin`). -/
inductive ActionType where
  | fold | check | call | bet | raise | allin
deriving DecidableEq, Repr

/-- Source `BettingRound`. -/
inductive BettingRound where
  | preflop | flop | turn | river
deriving DecidableEq, Repr

/-- The string a betting round interpolates into `roundBets` keys. -/
def roundKey : BettingRound → String
  | .preflop => "preflop" | .flop => "flop" | .turn => "turn" | .river => "river"

/-- Source `HandAction` audit-log record. -/
structure HandAction where
  agentId : String
  agentName : String
  seatNumber : Nat
  action : ActionType
  amount : Int
  round : BettingRound
  timestamp : Nat
deriving DecidableEq, Repr

/-- Source `HandPhase`. -/
inductive HandPhase where
  | waiting | preflop | flop | turn | river | showdown | complete
deriving DecidableEq, Repr

/-- Source `SidePot`. -/
structure SidePot where
  amount : Int
  eligibleAgentIds : List String
deriving DecidableEq, Repr

/-- Entry of `HandState.winners`. -/
structure Winner where
  agentId : String
  agentName : String
  amount : Int
  handName : String
deriving DecidableEq, Repr

/-- Source `HandState`.  `privDeck`/`privDeckIndex` model the `_deck` /
`_deckIndex` side channel attached by `startHand`.  `startingStacks` models
the `_startingStacks` side channel that `src/app/api/leaderboard/route.ts`
reads; the `startHand` code that records it is not part of the snapshot, so
it is populated as the spec describes (see `startHand` below). -/
structure HandState where
  id : String
  handNumber : Nat
  phase : HandPhase
  communityCards : List Card
  pot : Int
  sidePots : List SidePot
  actions : List HandAction
  currentBettingRound : BettingRound
  currentPlayerIndex : Nat
  activePlayerOrder : List Nat
  dealerSeatNumber : Nat
  smallBlindSeatNumber : Nat
  bigBlindSeatNumber : Nat
  currentBet : Int
  minRaise : Int
  winners : List Winner
  startedAt : Nat
  completedAt : Option Nat
  lastActionAt : Nat
  privDeck : List Card
  privDeckIndex : Nat
  startingStacks : List (String × Int)
deriving DecidableEq, Repr

/-- Source `TableConfig`. -/
structure TableConfig where
  id : String
  name : String
  smallBlind : Int
  bigBlind : Int
  minBuyIn : Int
  maxBuyIn : Int
  maxSeats : Nat
deriving DecidableEq, Repr

/-- Source `TableState`. -/
structure TableState where
  config : TableConfig
  seats : List Seat
  currentHand : Option HandState
  handHistory : List HandState
  handCount : Nat
deriving DecidableEq, Repr

/-- Default card used for out-of-range deck reads (unreachable: a 52-card
deck always covers the at most 12 hole plus 5 community cards drawn). -/
def dfltCard : Card := ⟨dfltRank, .h⟩

/-- Source `createEmptySeat`. -/
def createEmptySeat (seatNumber : Nat) : Seat :=
  { seatNumber := seatNumber, agent := none, stack := 0, holeCards := [],
    isSittingOut := false, currentBet := 0, hasActed := false,
    hasFolded := false, isAllIn := false, buyIn := 0 }

/-- The seat object at index `i` (JS `table.seats[i]`); out-of-range reads
default to an empty seat, which every guard in the engine rejects. -/
def seatAt (t : TableState) (i : Nat) : Seat :=
  t.seats.getD i (createEmptySeat i)

/-- In-place mutation of the seat at index `i`. -/
def updSeatAt (t : TableState) (i : Nat) (f : Seat → Seat) : TableState :=
  { t with seats := t.seats.set i (f (seatAt t i)) }

/-- `seat.agent!.id` with the unreachable null case defaulting to `""`. -/
def agentIdAt (t : TableState) (i : Nat) : String :=
  ((seatAt t i).agent.map (fun a => a.id)).getD ""

/-- `seat.agent!.name` with the unreachable null case defaulting to `""`. -/
def agentNameAt (t : TableState) (i : Nat) : String :=
  ((seatAt t i).agent.map (fun a => a.name)).getD ""

/-- Source `seatAgent` (`table.ts`, bundled at `src/lib/db/index.ts:141`):
requires an in-range empty seat and a buy-in within the configured range;
installs the agent with all per-hand flags cleared.  The seat index is a
`Nat`, which subsumes the source's `seatNumber < 0` check.  Returns the
source's boolean along with the updated table. -/
def seatAgent (t : TableState) (seatNumber : Nat) (agent : Agent) (buyInAmount : Int) :
    Bool × TableState :=
  if seatNumber ≥ t.config.maxSeats then (false, t)
  else if (seatAt t seatNumber).agent.isSome then (false, t)
  else if buyInAmount < t.config.minBuyIn ∨ buyInAmount > t.config.maxBuyIn then (false, t)
  else
    (true, updSeatAt t seatNumber (fun s =>
      { s with agent := some agent, stack := buyInAmount, buyIn := buyInAmount,
               isSittingOut := false, holeCards := [], currentBet := 0,
               hasActed := false, hasFolded := false, isAllIn := false }))

/-- Source `getActiveSeats`: occupied and not sitting out. -/
def getActiveSeats (t : TableState) : List Seat :=
  t.seats.filter (fun s => s.agent.isSome && !s.isSittingOut)

/-- Whether the seat at index `i` is occupied and not sitting out. -/
def isActiveIdx (t : TableState) (i : Nat) : Bool :=
  (seatAt t i).agent.isSome && !(seatAt t i).isSittingOut

/-- The sequence of seat indices visited by the source's clockwise scans:
`(p+1) % max, (p+2) % max, …` for `max` steps (both `getNextActiveSeat`
and `buildBettingOrder` walk exactly this sequence). -/
def posList (max p : Nat) : List Nat :=
  (List.range max).map (fun i => (p + 1 + i) % max)

/-- Source `getNextActiveSeat`: first occupied non-sitting-out seat on the
clockwise scan after `afterSeat`. -/
def getNextActiveSeat (t : TableState) (afterSeat : Nat) : Option Nat :=
  (posList t.config.maxSeats afterSeat).find? (isActiveIdx t)

/-- Source `archiveHand` (ring buffer of at most 50 hands). -/
def archiveHand (t : TableState) (h : HandState) : TableState :=
  let hst := t.handHistory ++ [h]
  { t with handHistory := if hst.length > 50 then hst.drop 1 else hst }

/-- Whether the seat at index `i` can be in a betting order: active, not
folded, not all-in (the predicate of the source `buildBettingOrder` loop). -/
def canBetIdx (t : TableState) (i : Nat) : Bool :=
  (seatAt t i).agent.isSome && !(seatAt t i).isSittingOut
    && !(seatAt t i).hasFolded && !(seatAt t i).isAllIn

/-- Source `buildBettingOrder`: clockwise scan after `afterSeat`, keeping
seats that can act.  (The source's `activeSeats` parameter is unused by its
body and omitted here.) -/
def buildBettingOrder (t : TableState) (afterSeat : Nat) : List Nat :=
  (posList t.config.maxSeats afterSeat).filter (canBetIdx t)

/-- Source `getPlayersWhoCanAct`. -/
def getPlayersWhoCanAct (t : TableState) : List Seat :=
  (getActiveSeats t).filter (fun s => !s.hasFolded && !s.isAllIn)

/-- Source `getPlayersStillInHand`. -/
def getPlayersStillInHand (t : TableState) : List Seat :=
  (getActiveSeats t).filter (fun s => !s.hasFolded)

/-- The table and the hand being processed.  In the source the two alias
(`table.currentHand === hand` while a hand is live); this pair threads both
through the otherwise in-place mutations. -/
structure GameSt where
  table : TableState
  hand : HandState
deriving DecidableEq, Repr

/-- Re-point `table.currentHand` at the processed hand, mirroring the
source's aliasing, unless `finishHand` already cleared it. -/
def syncHand (st : GameSt) : GameSt :=
  if st.table.currentHand.isSome then
    { st with table := { st.table with currentHand := some st.hand } }
  else st

/-- Source `getCurrentTurnSeat`. -/
def getCurrentTurnSeat (h : HandState) : Option Nat :=
  if h.phase = .waiting ∨ h.phase = .showdown ∨ h.phase = .complete then none
  else if h.activePlayerOrder.length = 0 then none
  else if h.currentPlayerIndex ≥ h.activePlayerOrder.length then none
  else some (h.activePlayerOrder.getD h.currentPlayerIndex 0)

/-- Source `drawCard`: read `_deck[_deckIndex]` and advance the cursor. -/
def drawCard (h : HandState) : Card × HandState :=
  (h.privDeck.getD h.privDeckIndex dfltCard, { h with privDeckIndex := h.privDeckIndex + 1 })

/-- Draw `k` cards in sequence onto the board (the source pushes the results
of consecutive `drawCard` calls onto `communityCards`). -/
def drawCards : Nat → HandState → HandState
  | 0, h => h
  | k + 1, h =>
    let (c, h1) := drawCard h
    drawCards k { h1 with communityCards := h1.communityCards ++ [c] }

/-- Source `resetActedForNewBet`: clear `hasActed` for every seat in the
betting order other than the raiser. -/
def resetActedForNewBet (st : GameSt) (raiserSeat : Nat) : GameSt :=
  let t := st.hand.activePlayerOrder.foldl (fun tb sn =>
    if sn ≠ raiserSeat then updSeatAt tb sn (fun s => { s with hasActed := false }) else tb)
    st.table
  { st with table := t }

/-- Source `finishHand`: mark complete, bump `handsPlayed`, bust-out
handling (auto-rebuy for bots, sit out humans), archive, clear
`currentHand`. -/
def finishHand (now : Nat) (st : GameSt) : GameSt :=
  let h := { st.hand with phase := .complete, completedAt := some now }
  let seats1 := st.table.seats.map (fun s =>
    if s.agent.isSome && !s.isSittingOut then
      { s with agent := s.agent.map (fun a => { a with handsPlayed := a.handsPlayed + 1 }) }
    else s)
  let t1 := { st.table with seats := seats1 }
  let seats2 := t1.seats.map (fun s =>
    match s.agent with
    | some a =>
      if s.stack ≤ 0 ∧ s.isSittingOut = false then
        if a.type ≠ .human then
          { s with stack := t1.config.maxBuyIn, buyIn := s.buyIn + t1.config.maxBuyIn }
        else { s with isSittingOut := true }
      else s
    | none => s)
  let t2 := { t1 with seats := seats2 }
  let h2 := { h with sidePots := [] }
  let t3 := archiveHand t2 h2
  { table := { t3 with currentHand := none }, hand := h2 }

/-- The first token of `s.split('_')`: the characters before the first
underscore (kernel-reducible stand-in for `String.splitOn "_" |>.headD ""`,
which agrees with it on every string). -/
def firstUnderscoreToken (s : String) : String :=
  ⟨s.data.takeWhile (fun c => c ≠ '_')⟩

/-- Source `calculateSidePots`.  Per-round contributions are recovered from
the audit log (the recorded `amount` is the cumulative per-round bet), then
summed per player — the source recovers the player key as
`key.split('_')[0]` of `agentId + '_' + round`.  A first `contributions`
map in the source is computed but never read and is omitted. -/
def calculateSidePots (t : TableState) (h : HandState) : List SidePot :=
  let playersInHand := getPlayersStillInHand t
  let roundBets : List (String × Int) := h.actions.foldl (fun acc a =>
    if a.action = .fold then acc
    else upsert (a.agentId ++ "_" ++ roundKey a.round) a.amount acc) []
  let totalBets : List (String × Int × Nat) := roundBets.foldl (fun acc kv =>
    let aid := firstUnderscoreToken kv.1
    if acc.any (fun p => p.1 == aid) then
      acc.map (fun p => if p.1 == aid then (p.1, p.2.1 + kv.2, p.2.2) else p)
    else
      let seatN := match playersInHand.find? (fun s =>
          ((s.agent.map (fun a => a.id)).getD "") == aid) with
        | some s => s.seatNumber
        | none => match t.seats.find? (fun s =>
            match s.agent with | some a => a.id == aid | none => false) with
          | some s => s.seatNumber
          | none => 0
      acc ++ [(aid, kv.2, seatN)]) []
  let allInPlayers := playersInHand.filter (fun s => s.isAllIn)
  let singlePot : List SidePot :=
    [{ amount := h.pot,
       eligibleAgentIds := playersInHand.map (fun s => ((s.agent.map (fun a => a.id)).getD "")) }]
  if allInPlayers.isEmpty then singlePot
  else
    let sortedContribs := jsSortBy (fun a b => a.2.1 - b.2.1) totalBets
    let pots := (sortedContribs.foldl (fun (acc : List SidePot × Int) c =>
      let level := c.2.1
      if level ≤ acc.2 then acc
      else
        let perPlayer := level - acc.2
        let eligible := (sortedContribs.filter (fun x => x.2.1 ≥ level)).map (fun x => x.1)
        let numContributors := (sortedContribs.filter (fun x => x.2.1 > acc.2)).length
        (acc.1 ++ [{ amount := perPlayer * numContributors, eligibleAgentIds := eligible }],
         level)) ([], 0)).1
    let totalSidePots := pots.foldl (fun s p => s + p.amount) 0
    let pots := if totalSidePots < h.pot then
      match pots.getLast? with
      | some lp => pots.dropLast ++ [{ lp with amount := lp.amount + (h.pot - totalSidePots) }]
      | none => pots
    else pots
    if pots.isEmpty then singlePot
    else pots

/-- Source `doShowdown`: single-winner fast path, else pay each computed
side pot to the best eligible non-folded hands (pots whose eligible set
matches no player in hand are skipped by the source's `continue`). -/
def doShowdown (now : Nat) (st : GameSt) : GameSt :=
  let h := { st.hand with phase := .showdown }
  let t := st.table
  let playersInHand := getPlayersStillInHand t
  match playersInHand with
  | [w] =>
    let t1 := updSeatAt t w.seatNumber (fun s =>
      { s with stack := s.stack + h.pot,
               agent := s.agent.map (fun a => { a with handsWon := a.handsWon + 1 }) })
    let winEntry : Winner :=
      { agentId := (w.agent.map (fun a => a.id)).getD "",
        agentName := (w.agent.map (fun a => a.name)).getD "",
        amount := h.pot, handName := "Last player standing" }
    let h1 := { h with winners := [winEntry], pot := 0 }
    finishHand now ⟨t1, h1⟩
  | _ =>
    let sidePots := calculateSidePots t h
    let paid := sidePots.foldl (fun (acc : TableState × List Winner) pot =>
      let eligible := playersInHand.filter (fun s =>
        pot.eligibleAgentIds.contains ((s.agent.map (fun a => a.id)).getD ""))
      if eligible.isEmpty then acc
      else
        let evaluations := eligible.map (fun s => (s, evaluateHand (s.holeCards ++ h.communityCards)))
        let sortedEv := jsSortBy (fun a b => compareHands b.2 a.2) evaluations
        let bestHand := (sortedEv.headD (createEmptySeat 0, emptyEval)).2
        let winners := sortedEv.filter (fun e => compareHands e.2 bestHand == 0)
        let share := Int.fdiv pot.amount winners.length
        let remainder := pot.amount - share * winners.length
        winners.enum.foldl (fun (acc2 : TableState × List Winner) iw =>
          let winAmount := share + (if iw.1 = 0 then remainder else 0)
          (updSeatAt acc2.1 iw.2.1.seatNumber (fun s =>
            { s with stack := s.stack + winAmount,
                     agent := s.agent.map (fun a => { a with handsWon := a.handsWon + 1 }) }),
           acc2.2 ++ [{ agentId := (iw.2.1.agent.map (fun a => a.id)).getD "",
                        agentName := (iw.2.1.agent.map (fun a => a.name)).getD "",
                        amount := winAmount, handName := iw.2.2.name }])) acc)
      (t, [])
    let h1 := { h with winners := paid.2, pot := 0 }
    finishHand now ⟨paid.1, h1⟩

/-- Source `skipToShowdown`: run out the board to five cards, set the phase
to river, and resolve the showdown. -/
def skipToShowdown (now : Nat) (st : GameSt) : GameSt :=
  let h := drawCards (5 - st.hand.communityCards.length) st.hand
  doShowdown now ⟨st.table, { h with phase := .river, currentBettingRound := .river }⟩

/-- Source `advancePhase`.  The source recurses to run out the board when
nobody can act; each recursive call advances the phase strictly toward the
river, so a fuel of 4 makes the recursion total (fuel never runs out when
called with 4 from a betting phase). -/
def advancePhase (now : Nat) : Nat → GameSt → GameSt
  | 0, st => st
  | fuel + 1, st =>
    let rseats := st.table.seats.map (fun s => { s with currentBet := 0, hasActed := false })
    let t := { st.table with seats := rseats }
    let h := { st.hand with currentBet := 0, minRaise := st.table.config.bigBlind }
    let nInHand := (getPlayersStillInHand t).length
    let nCanAct := (getPlayersWhoCanAct t).length
    let finishRound := fun (h1 : HandState) =>
      let h2 := { h1 with
        activePlayerOrder := buildBettingOrder t h1.dealerSeatNumber,
        currentPlayerIndex := 0 }
      if nCanAct ≤ 1 ∧ nInHand > 1 then advancePhase now fuel ⟨t, h2⟩
      else if h2.activePlayerOrder.isEmpty then advancePhase now fuel ⟨t, h2⟩
      else ⟨t, h2⟩
    match h.phase with
    | .preflop => finishRound (drawCards 3 { h with phase := .flop, currentBettingRound := .flop })
    | .flop => finishRound (drawCards 1 { h with phase := .turn, currentBettingRound := .turn })
    | .turn => finishRound (drawCards 1 { h with phase := .river, currentBettingRound := .river })
    | .river => doShowdown now ⟨t, h⟩
    | _ => ⟨t, h⟩

/-- Source `advanceAction`: move the turn to the first order seat that can
still act, else advance the phase. -/
def advanceAction (now : Nat) (st : GameSt) : GameSt :=
  let canAct := st.hand.activePlayerOrder.filter (fun sn =>
    !(seatAt st.table sn).hasFolded && !(seatAt st.table sn).isAllIn
      && !(seatAt st.table sn).hasActed)
  match canAct with
  | c :: _ =>
    { st with hand := { st.hand with currentPlayerIndex := st.hand.activePlayerOrder.indexOf c } }
  | [] => advancePhase now 4 st

/-- The code after the action switch in source `processAction`: record the
action (with the running per-round amount), stamp `lastActionAt`, mark
`hasActed`, then either award the pot to a lone remaining player and finish
the hand, or advance the action. -/
def postAction (now : Nat) (st : GameSt) (seatNumber : Nat) (action : ActionType) :
    Bool × GameSt :=
  let seat := seatAt st.table seatNumber
  let handAction : HandAction :=
    { agentId := (seat.agent.map (fun a => a.id)).getD "",
      agentName := (seat.agent.map (fun a => a.name)).getD "",
      seatNumber := seatNumber,
      action := if seat.isAllIn ∧ action ≠ .fold then .allin else action,
      amount := seat.currentBet,
      round := st.hand.currentBettingRound,
      timestamp := now }
  let h := { st.hand with actions := st.hand.actions ++ [handAction], lastActionAt := now }
  let t := updSeatAt st.table seatNumber (fun s => { s with hasActed := true })
  match getPlayersStillInHand t with
  | [w] =>
    let t1 := updSeatAt t w.seatNumber (fun s =>
      { s with stack := s.stack + h.pot,
               agent := s.agent.map (fun a => { a with handsWon := a.handsWon + 1 }) })
    let winEntry : Winner :=
      { agentId := (w.agent.map (fun a => a.id)).getD "",
        agentName := (w.agent.map (fun a => a.name)).getD "",
        amount := h.pot, handName := "Last player standing" }
    let h1 := { h with winners := [winEntry], pot := 0 }
    (true, syncHand (finishHand now ⟨t1, h1⟩))
  | _ => (true, syncHand (advanceAction now ⟨t, h⟩))

/-- The body of source `processAction` for an already-remapped action (see
`processAction` below for the preflop bet-to-raise remap): validate that it
is `seatNumber`'s turn and that the seat can act, apply the action, and
return whether it was accepted.  Every rejection path returns the input
state untouched, as in the source. -/
def processActionCore (now : Nat) (st : GameSt) (seatNumber : Nat) (act : ActionType)
    (amount : Option Int) : Bool × GameSt :=
  match getCurrentTurnSeat st.hand with
  | none => (false, st)
  | some currentTurn =>
    if currentTurn ≠ seatNumber then (false, st)
    else
      let seat := seatAt st.table seatNumber
      if seat.agent.isNone || seat.hasFolded || seat.isAllIn then (false, st)
      else
        let toCall := st.hand.currentBet - seat.currentBet
        match act with
        | .fold =>
          postAction now
            { st with table := updSeatAt st.table seatNumber (fun s => { s with hasFolded := true }) }
            seatNumber act
        | .check =>
          if toCall > 0 then (false, st)
          else postAction now st seatNumber act
        | .call =>
          let callAmount := min toCall seat.stack
          let t := updSeatAt st.table seatNumber (fun s =>
            { s with stack := s.stack - callAmount, currentBet := s.currentBet + callAmount,
                     isAllIn := if s.stack - callAmount = 0 then true else s.isAllIn })
          postAction now ⟨t, { st.hand with pot := st.hand.pot + callAmount }⟩ seatNumber act
        | .bet =>
          if st.hand.currentBet > 0 ∧ st.hand.currentBettingRound ≠ .preflop then (false, st)
          else
            let betAmount := amount.getD st.table.config.bigBlind
            if betAmount < st.table.config.bigBlind ∧ betAmount < seat.stack then (false, st)
            else
              let actualBet := min betAmount seat.stack
              let t := updSeatAt st.table seatNumber (fun s =>
                { s with stack := s.stack - actualBet, currentBet := s.currentBet + actualBet,
                         isAllIn := if s.stack - actualBet = 0 then true else s.isAllIn })
              let h := { st.hand with
                pot := st.hand.pot + actualBet,
                currentBet := seat.currentBet + actualBet,
                minRaise := actualBet }
              postAction now (resetActedForNewBet ⟨t, h⟩ seatNumber) seatNumber act
        | .raise =>
          let raiseTotal := amount.getD (st.hand.currentBet + st.hand.minRaise)
          let raiseToAmount := min raiseTotal (seat.currentBet + seat.stack)
          let additionalChips := raiseToAmount - seat.currentBet
          if additionalChips ≤ 0 then (false, st)
          else if raiseToAmount < st.hand.currentBet + st.hand.minRaise ∧
              raiseToAmount < seat.currentBet + seat.stack then (false, st)
          else
            let raiseSize := raiseToAmount - st.hand.currentBet
            let t := updSeatAt st.table seatNumber (fun s =>
              { s with stack := s.stack - additionalChips, currentBet := raiseToAmount,
                       isAllIn := if s.stack - additionalChips = 0 then true else s.isAllIn })
            let h := { st.hand with
              pot := st.hand.pot + additionalChips,
              minRaise := if raiseSize > st.hand.minRaise then raiseSize else st.hand.minRaise,
              currentBet := raiseToAmount }
            postAction now (resetActedForNewBet ⟨t, h⟩ seatNumber) seatNumber act
        | .allin =>
          let allInAmount := seat.stack
          let newBet := seat.currentBet + allInAmount
          let t := updSeatAt st.table seatNumber (fun s =>
            { s with stack := 0, isAllIn := true })
          let h := { st.hand with pot := st.hand.pot + allInAmount }
          let st1 :=
            if newBet > st.hand.currentBet then
              let raiseSize := newBet - st.hand.currentBet
              let h1 := { h with
                minRaise := if raiseSize ≥ st.hand.minRaise then raiseSize else h.minRaise,
                currentBet := newBet }
              resetActedForNewBet ⟨t, h1⟩ seatNumber
            else ⟨t, h⟩
          let t2 := updSeatAt st1.table seatNumber (fun s => { s with currentBet := newBet })
          let st2 := { st1 with table := t2 }
          postAction now st2 seatNumber act

/-- Source `processAction`.  In preflop the source remaps a plain `bet` to
`raise` through a single self-recursive call whose guards re-check the
identical state; that is modelled by remapping the action up front and
running the body once. -/
def processAction (now : Nat) (st : GameSt) (seatNumber : Nat) (action : ActionType)
    (amount : Option Int) : Bool × GameSt :=
  processActionCore now st seatNumber
    (if action = .bet ∧ st.hand.currentBettingRound = .preflop then .raise else action) amount

/-- Source `startHand`, with the shuffled deck, clock and hand id as inputs
(the source draws them from `freshDeck()`, `Date.now()` and a counter).
Returns `none` where the source throws for fewer than two active players.

Modelled from the spec: the snapshot of per-hand starting stacks
(`_startingStacks`, read by the leaderboard route) is recorded here for
each active seat before blinds are posted — "the engine therefore must
retain per-hand starting stacks"; the revision of `startHand` that records
it is not part of the source snapshot. -/
def startHand (t : TableState) (deck : List Card) (now : Nat) (hid : String) :
    Option GameSt :=
  let activeSeats := getActiveSeats t
  if activeSeats.length < 2 then none
  else
    let activeIdx := activeSeats.map (fun s => s.seatNumber)
    let dealerSeat :=
      if t.currentHand.isNone ∧ t.handHistory.isEmpty then activeIdx.headD 0
      else
        let lastDealer := match t.currentHand with
          | some h => h.dealerSeatNumber
          | none => ((t.handHistory.getLast?).map (fun h => h.dealerSeatNumber)).getD 0
        (getNextActiveSeat t lastDealer).getD (activeIdx.headD 0)
    let sbSeat := if activeSeats.length = 2 then dealerSeat
      else (getNextActiveSeat t dealerSeat).getD 0
    let bbSeat := if activeSeats.length = 2 then (getNextActiveSeat t dealerSeat).getD 0
      else (getNextActiveSeat t ((getNextActiveSeat t dealerSeat).getD 0)).getD 0
    let t1 := { t with seats := t.seats.map (fun s =>
      { s with holeCards := [], currentBet := 0, hasActed := false,
               hasFolded := false, isAllIn := false }) }
    let startingStacks := activeIdx.map (fun i => (agentIdAt t1 i, (seatAt t1 i).stack))
    let dealt := activeIdx.foldl (fun (acc : TableState × Nat) i =>
      (updSeatAt acc.1 i (fun s =>
        { s with holeCards := [deck.getD acc.2 dfltCard, deck.getD (acc.2 + 1) dfltCard] }),
       acc.2 + 2)) (t1, 0)
    let t2 := dealt.1
    let deckIndex := dealt.2
    let sbAmount := min t.config.smallBlind (seatAt t2 sbSeat).stack
    let t3 := updSeatAt t2 sbSeat (fun s =>
      { s with stack := s.stack - sbAmount, currentBet := sbAmount,
               isAllIn := if s.stack - sbAmount = 0 then true else s.isAllIn })
    let bbAmount := min t.config.bigBlind (seatAt t3 bbSeat).stack
    let t4 := updSeatAt t3 bbSeat (fun s =>
      { s with stack := s.stack - bbAmount, currentBet := bbAmount,
               isAllIn := if s.stack - bbAmount = 0 then true else s.isAllIn })
    let pot := sbAmount + bbAmount
    let preflopOrder := buildBettingOrder t4 bbSeat
    let hand : HandState :=
      { id := hid, handNumber := t.handCount + 1, phase := .preflop,
        communityCards := [], pot := pot, sidePots := [],
        actions :=
          [{ agentId := agentIdAt t4 sbSeat, agentName := agentNameAt t4 sbSeat,
             seatNumber := sbSeat,
             action := if sbAmount < t.config.smallBlind then .allin else .bet,
             amount := sbAmount, round := .preflop, timestamp := now },
           { agentId := agentIdAt t4 bbSeat, agentName := agentNameAt t4 bbSeat,
             seatNumber := bbSeat,
             action := if bbAmount < t.config.bigBlind then .allin else .bet,
             amount := bbAmount, round := .preflop, timestamp := now }],
        currentBettingRound := .preflop, currentPlayerIndex := 0,
        activePlayerOrder := preflopOrder, dealerSeatNumber := dealerSeat,
        smallBlindSeatNumber := sbSeat, bigBlindSeatNumber := bbSeat,
        currentBet := bbAmount, minRaise := t.config.bigBlind, winners := [],
        startedAt := now, completedAt := none, lastActionAt := now,
        privDeck := deck.drop deckIndex, privDeckIndex := 0,
        startingStacks := startingStacks }
    let t5 := { t4 with handCount := t.handCount + 1, currentHand := some hand }
    let st : GameSt := ⟨t5, hand⟩
    some (if (getPlayersWhoCanAct t5).length ≤ 1 then syncHand (skipToShowdown now st)
          else syncHand st)

/-- Source `GameManager.rebuyAgent` (identical in every revision of
`game-manager.ts` in the snapshot): after the table lookup, find the seat by
agent id; reject during an active hand only while the seat is still involved
(not folded, not sitting out); enforce the max buy-in cap; otherwise add the
amount to the stack and the recorded buy-in. -/
def rebuyAgent (t : TableState) (agentId : String) (amount : Int) : Bool × TableState :=
  match t.seats.find? (fun s =>
      match s.agent with | some a => a.id == agentId | none => false) with
  | none => (false, t)
  | some seat =>
    if (t.currentHand.any (fun h => h.phase != .complete))
        && !seat.hasFolded && !seat.isSittingOut then (false, t)
    else if seat.stack + amount > t.config.maxBuyIn then (false, t)
    else (true, updSeatAt t seat.seatNumber (fun s =>
      { s with stack := s.stack + amount, buyIn := s.buyIn + amount }))

/-- The per-table guard of `GameManager.tick` (game-manager revision at
`src/unnamed/part_005`, lines 89–109): when processing a table throws
mid-hand (phase not `showdown`), return every occupied seat's in-round
`currentBet` to its stack and clear the hand. -/
def tickGuardRecover (t : TableState) : TableState :=
  if t.currentHand.any (fun h => h.phase != .showdown) then
    let rseats := t.seats.map (fun s =>
      if s.agent.isSome ∧ s.currentBet > 0 then
        { s with stack := s.stack + s.currentBet, currentBet := 0 }
      else s)
    { t with seats := rseats, currentHand := none }
  else t

/-- The per-seat unrealized P/L term of `GET /api/leaderboard`
(`src/app/api/leaderboard/route.ts`, lines 36–43): for an occupied seat at a
table whose hand is in progress, the stack delta against the hand's starting
stack when one was recorded, else 0. -/
def seatUnrealizedPnL (currentHand : Option HandState) (seat : Seat) : Int :=
  match seat.agent, currentHand with
  | some a, some h =>
    if h.phase ≠ .complete then
      match h.startingStacks.lookup a.id with
      | some s0 => seat.stack - s0
      | none => 0
    else 0
  | _, _ => 0

/-- Sum of all seat stacks plus the live pot — the quantity the spec's chip
conservation invariant tracks. -/
def chipTotal (t : TableState) : Int :=
  (t.seats.foldl (fun acc s => acc + s.stack) 0) +
    (match t.currentHand with | some h => h.pot | none => 0)

/-- Source `createTable`: `maxSeats` empty seats, no hand, empty history. -/
def createTable (config : TableConfig) : TableState :=
  { config := config, seats := (List.range config.maxSeats).map createEmptySeat,
    currentHand := none, handHistory := [], handCount := 0 }

/-- Placeholder hand, used only as the `getD` default when reading
`startHand` results that are separately proved (or checked) to be `some`. -/
def dummyHand : HandState :=
  { id := "", handNumber := 0, phase := .waiting, communityCards := [], pot := 0,
    sidePots := [], actions := [], currentBettingRound := .preflop,
    currentPlayerIndex := 0, activePlayerOrder := [], dealerSeatNumber := 0,
    smallBlindSeatNumber := 0, bigBlindSeatNumber := 0, currentBet := 0,
    minRaise := 0, winners := [], startedAt := 0, completedAt := none,
    lastActionAt := 0, privDeck := [], privDeckIndex := 0, startingStacks := [] }

/-- The `micro` entry of the source's `DEFAULT_TABLES`. -/
def cfgMicro : TableConfig :=
  { id := "micro", name := "Micro Stakes", smallBlind := 1, bigBlind := 2,
    minBuyIn := 40, maxBuyIn := 200, maxSeats := 6 }

/-- A human agent as `GameManager.sitAgent` builds one (ids produced by the
source contain underscores: `agent_<time>_<suffix>` or
`agent_<privyUserId>_<time>`). -/
def humanA : Agent :=
  { id := "agent_1_aa", name := "A", type := .human, totalProfit := 0,
    handsPlayed := 0, handsWon := 0 }

/-- Second concrete human agent. -/
def humanB : Agent :=
  { id := "agent_2_bb", name := "B", type := .human, totalProfit := 0,
    handsPlayed := 0, handsWon := 0 }

/-- Third concrete human agent. -/
def humanC : Agent :=
  { id := "agent_3_cc", name := "C", type := .human, totalProfit := 0,
    handsPlayed := 0, handsWon := 0 }

/-- Nine concrete cards: four hole cards for two players plus five board
cards (no flush, no straight for either player matters in the scenarios
that use it, since the buggy showdown never evaluates hands). -/
def deck9 : List Card :=
  [⟨.two, .h⟩, ⟨.three, .h⟩, ⟨.four, .h⟩, ⟨.five, .h⟩,
   ⟨.six, .s⟩, ⟨.seven, .s⟩, ⟨.eight, .s⟩, ⟨.nine, .s⟩, ⟨.ten, .s⟩]

/-- Eleven concrete cards (hole cards for three players plus a board). -/
def deck11 : List Card :=
  [⟨.two, .h⟩, ⟨.three, .h⟩, ⟨.four, .h⟩, ⟨.five, .h⟩, ⟨.six, .h⟩, ⟨.seven, .h⟩,
   ⟨.eight, .s⟩, ⟨.nine, .s⟩, ⟨.ten, .s⟩, ⟨.jack, .s⟩, ⟨.queen, .s⟩]

/-- Micro table with two humans seated through `seatAgent` at the minimum
buy-in of 40 chips each. -/
def c1Table : TableState :=
  (seatAgent (seatAgent (createTable cfgMicro) 0 humanA 40).2 1 humanB 40).2

/-- Hand started on `c1Table`; seat 0 deals, posts the small blind. -/
def c1Start : Option GameSt := startHand c1Table deck9 1000 "h1"

/-- The started hand state. -/
def c1St : GameSt := c1Start.getD ⟨c1Table, dummyHand⟩

/-- Seat 0 (dealer/SB) moves all-in for its remaining 39 chips. -/
def c1Allin : Bool × GameSt := processAction 1001 c1St 0 .allin none

/-- Seat 1 (BB) calls for its remaining 38 chips, triggering the run-out
and showdown. -/
def c1Call : Bool × GameSt := processAction 1002 c1Allin.2 1 .call none

/-- A seated seat literal helper for the states below. -/
def seatedSeat (n : Nat) (a : Agent) (stk : Int) (buy : Int) : Seat :=
  { seatNumber := n, agent := some a, stack := stk, holeCards := [],
    isSittingOut := false, currentBet := 0, hasActed := false,
    hasFolded := false, isAllIn := false, buyIn := buy }

/-- The table state at which `doShowdown` invokes `calculateSidePots` in the
`c1Table` scenario (seat 0 all-in for 40, seat 1 all-in calling 40, board
run out): both seats all-in with zero stacks, per-round bets already reset
by `advancePhase`.  This is the state produced by the engine trace of
`c1Call` at showdown entry. -/
def c2Table : TableState :=
  { config := cfgMicro,
    seats :=
      [{ seatNumber := 0, agent := some humanA, stack := 0,
         holeCards := [⟨.two, .h⟩, ⟨.three, .h⟩], isSittingOut := false,
         currentBet := 0, hasActed := false, hasFolded := false,
         isAllIn := true, buyIn := 40 },
       { seatNumber := 1, agent := some humanB, stack := 0,
         holeCards := [⟨.four, .h⟩, ⟨.five, .h⟩], isSittingOut := false,
         currentBet := 0, hasActed := false, hasFolded := false,
         isAllIn := true, buyIn := 40 },
       createEmptySeat 2, createEmptySeat 3, createEmptySeat 4, createEmptySeat 5],
    currentHand := none, handHistory := [], handCount := 1 }

/-- The hand state at which `doShowdown` invokes `calculateSidePots` in the
`c1Table` scenario: pot 80, and the audit log holding the two blind posts
and the two all-in commitments (cumulative per-round amounts 40 and 40). -/
def c2Hand : HandState :=
  { id := "h1", handNumber := 1, phase := .showdown,
    communityCards := [⟨.six, .s⟩, ⟨.seven, .s⟩, ⟨.eight, .s⟩, ⟨.nine, .s⟩, ⟨.ten, .s⟩],
    pot := 80, sidePots := [],
    actions :=
      [{ agentId := "agent_1_aa", agentName := "A", seatNumber := 0,
         action := .bet, amount := 1, round := .preflop, timestamp := 1000 },
       { agentId := "agent_2_bb", agentName := "B", seatNumber := 1,
         action := .bet, amount := 2, round := .preflop, timestamp := 1000 },
       { agentId := "agent_1_aa", agentName := "A", seatNumber := 0,
         action := .allin, amount := 40, round := .preflop, timestamp := 1001 },
       { agentId := "agent_2_bb", agentName := "B", seatNumber := 1,
         action := .allin, amount := 40, round := .preflop, timestamp := 1002 }],
    currentBettingRound := .river, currentPlayerIndex := 0, activePlayerOrder := [],
    dealerSeatNumber := 0, smallBlindSeatNumber := 0, bigBlindSeatNumber := 1,
    currentBet := 0, minRaise := 2, winners := [], startedAt := 1000,
    completedAt := none, lastActionAt := 1002,
    privDeck := [⟨.six, .s⟩, ⟨.seven, .s⟩, ⟨.eight, .s⟩, ⟨.nine, .s⟩, ⟨.ten, .s⟩],
    privDeckIndex := 5,
    startingStacks := [("agent_1_aa", 40), ("agent_2_bb", 40)] }

/-- Micro table with three humans seated through `seatAgent`, each at
buy-ins within range (seat 2 at the minimum 40). -/
def c3Table : TableState :=
  (seatAgent (seatAgent (seatAgent (createTable cfgMicro) 0 humanA 100).2
    1 humanB 100).2 2 humanC 40).2

/-- Hand started on `c3Table`: dealer 0, SB seat 1, BB seat 2, order `[0,1,2]`. -/
def c3St : GameSt := (startHand c3Table deck11 2000 "h2").getD ⟨c3Table, dummyHand⟩

/-- Seat 0 raises to 30, setting `minRaise` to 28. -/
def c3Raise : Bool × GameSt := processAction 2001 c3St 0 .raise (some 30)

/-- Seat 1 calls 30; its `hasActed` flag is now set. -/
def c3CallB : Bool × GameSt := processAction 2002 c3Raise.2 1 .call none

/-- Seat 2 (BB, 38 behind after the blind) moves all-in for a total of 40 —
a raise of size 10, short of `minRaise = 28`. -/
def c3ShortAllin : Bool × GameSt := processAction 2003 c3CallB.2 2 .allin none

/-- Heads-up table whose small blind holds exactly one chip (a stack reached
after losses; `seatAgent` enforces the range on buy-ins, not on later
stacks). -/
def c7ShortTable : TableState :=
  { config := cfgMicro,
    seats := [seatedSeat 0 humanA 1 40, seatedSeat 1 humanB 100 40,
              createEmptySeat 2, createEmptySeat 3, createEmptySeat 4, createEmptySeat 5],
    currentHand := none, handHistory := [], handCount := 0 }

/-- Hand started on `c7ShortTable`: the dealer (seat 0) is the small blind
and goes all-in posting it. -/
def c7ShortSt : GameSt := (startHand c7ShortTable deck9 3000 "h3").getD ⟨c7ShortTable, dummyHand⟩

/-- Table with a live hand on the flop in which seat 0 has already folded,
for the rebuy counterexample. -/
def c9Table : TableState :=
  { config := cfgMicro,
    seats := [{ seatedSeat 0 humanA 50 40 with hasFolded := true },
              seatedSeat 1 humanB 100 40, seatedSeat 2 humanC 100 40,
              createEmptySeat 3, createEmptySeat 4, createEmptySeat 5],
    currentHand := some { dummyHand with
      id := "h4",
      phase := .flop,
      currentBettingRound := .flop,
      pot := 30 },
    handHistory := [], handCount := 4 }

/-- The rebuy attempted by the folded seat while the hand is live. -/
def c9Rebuy : Bool × TableState := rebuyAgent c9Table "agent_1_aa" 100

/-- The five cards `A 2 3 4 5` under an arbitrary suit assignment. -/
def aceLowCards (s1 s2 s3 s4 s5 : Suit) : List Card :=
  [⟨.ace, s1⟩, ⟨.two, s2⟩, ⟨.three, s3⟩, ⟨.four, s4⟩, ⟨.five, s5⟩]

/-- Table with a live hand and nonzero in-round bets, for the tick-guard
witness. -/
def c4Table : TableState :=
  { config := cfgMicro,
    seats := [{ seatedSeat 0 humanA 50 40 with currentBet := 5 },
              { seatedSeat 1 humanB 90 40 with currentBet := 10 },
              { seatedSeat 2 humanC 80 40 with currentBet := 20 },
              createEmptySeat 3, createEmptySeat 4, createEmptySeat 5],
    currentHand := some { dummyHand with
      id := "h5",
      phase := .turn,
      currentBettingRound := .turn,
      pot := 35 },
    handHistory := [], handCount := 5 }

/-- Hand with a recorded starting stack differing from the seat's buy-in,
for the leaderboard witness. -/
def c6Hand : HandState :=
  { c2Hand with startingStacks := [("agent_1_aa", 30)] }

/-- Seat whose stack (55) differs from both its hand-start stack (30) and
its buy-in (40), for the leaderboard witness. -/
def c6Seat : Seat := seatedSeat 0 humanA 55 40

/-- The value of the all-in branch of `processActionCore` when the all-in
total exceeds the hand's current bet (a raising all-in): stack pushed, pot
fed, `currentBet` raised, `minRaise` updated only for a full-size raise, and
`hasActed` reset for every other seat in the order before the action is
recorded.  Equal to `processActionCore … .allin` under those guards (see
`processActionCore_allin_eq`). -/
def allinResult (now : Nat) (st : GameSt) (n : Nat) : Bool × GameSt :=
  let seat := seatAt st.table n
  let newBet := seat.currentBet + seat.stack
  let t := updSeatAt st.table n (fun s => { s with stack := 0, isAllIn := true })
  let h1 := { st.hand with
    pot := st.hand.pot + seat.stack,
    minRaise := if newBet - st.hand.currentBet ≥ st.hand.minRaise
      then newBet - st.hand.currentBet else st.hand.minRaise,
    currentBet := newBet }
  let st1 := resetActedForNewBet ⟨t, h1⟩ n
  let t2 := updSeatAt st1.table n (fun s => { s with currentBet := newBet })
  postAction now ⟨t2, st1.hand⟩ n .allin

/-- Indices of the active (occupied, not sitting-out) seats, in seat order;
`getActiveSeats` is exactly this list mapped through `seatAt` (see
`getActiveSeats_eq_map_activePos`). -/
def activePos (t : TableState) : List Nat :=
  (List.range t.seats.length).filter (fun i => isActiveIdx t i)

/-- A heads-up table mid-session: the previous hand (dealer seat 0) is
still recorded as `currentHand`, so the next `startHand` rotates the
button. -/
def c7RotTable : TableState :=
  { c1Table with
    currentHand := some { dummyHand with
      id := "h0", phase := HandPhase.complete, dealerSeatNumber := 0 },
    handCount := 1 }

/-! ## Theorems -/

/-- C1: the claimed chip-conservation invariant fails on the code.  On the
reachable `c1Table` scenario (two humans seated at buy-in 40, blinds 1/2),
seat 0 moves all-in and seat 1 calls; the showdown that follows pays out
nothing (`calculateSidePots` recovers contributor keys as
`key.split('_')[0]`, which collapses the underscore-bearing agent ids to
`"agent"`, so every pot's eligible set matches no seated player and is
skipped), and the 80 chips in play drop to 0: the action does not preserve
stacks + pot, and the amount paid to winners (0) differs from the pot (80). -/
theorem chip_conservation_fails_at_allin_showdown :
    chipTotal c1Table = 80 ∧ c1Start.isSome = true ∧
    c1Allin.1 = true ∧ c1Call.1 = true ∧
    chipTotal c1Call.2.table = 0 ∧
    c1Call.2.hand.phase = HandPhase.complete ∧
    c1Call.2.hand.winners = [] := by decide

/-- C2: at the showdown-entry state of the `c1Table` scenario (both players
contributed 40, pot 80), the claimed construction would yield one pot of 80
whose eligible set is exactly the two non-folded contributors; the code
instead produces the eligible set `["agent"]` (the `split('_')[0]` prefix
of both ids), which is not the set of non-folded players who contributed at
that level. -/
theorem sidePot_eligible_sets_collapse :
    calculateSidePots c2Table c2Hand = [{ amount := 80, eligibleAgentIds := ["agent"] }] ∧
    (getPlayersStillInHand c2Table).map (fun s => ((s.agent.map (fun a => a.id)).getD ""))
      = ["agent_1_aa", "agent_2_bb"] ∧
    ("agent" : String) ∉ ["agent_1_aa", "agent_2_bb"] := by decide

/-- C3 counterexample: in the `c3Table` scenario seat 0 raises to 30
(`minRaise` becomes 28), seat 1 calls (its `hasActed` is set), then seat 2
moves all-in for a total of 40 — a raise of size 10 < 28.  The claim says
seat 1's `hasActed` is left unchanged; the code resets it to `false`. -/
theorem short_allin_resets_hasActed_counterexample :
    c3CallB.1 = true ∧
    (seatAt c3CallB.2.table 1).hasActed = true ∧
    (seatAt c3CallB.2.table 2).currentBet + (seatAt c3CallB.2.table 2).stack = 40 ∧
    c3CallB.2.hand.currentBet = 30 ∧ c3CallB.2.hand.minRaise = 28 ∧
    c3ShortAllin.1 = true ∧
    (seatAt c3ShortAllin.2.table 1).hasActed = false := by decide

/-- C7 counterexample: heads-up hand on `c7ShortTable` where the dealer's
one-chip stack goes all-in posting the small blind.  The dealer is the
small blind and the other seat the big blind as claimed, but the preflop
`activePlayerOrder` is `[1]` — it does not list the dealer first, because
`buildBettingOrder` skips all-in seats. -/
theorem headsUp_order_counterexample_short_blind :
    (getActiveSeats c7ShortTable).length = 2 ∧
    (startHand c7ShortTable deck9 3000 "h3").isSome = true ∧
    c7ShortSt.hand.dealerSeatNumber = 0 ∧
    c7ShortSt.hand.smallBlindSeatNumber = 0 ∧
    c7ShortSt.hand.bigBlindSeatNumber = 1 ∧
    c7ShortSt.hand.activePlayerOrder = [1] := by decide

/-- C9 counterexample: on `c9Table` the hand is live (phase flop, not
complete), yet the folded seat 0 successfully rebuys 100 — the claim that a
rebuy is rejected whenever the table has an active, uncompleted hand is
false; the code rejects only while the seat is still involved. -/
theorem rebuy_allowed_midHand_for_folded_seat :
    (c9Table.currentHand.any (fun h => h.phase != HandPhase.complete)) = true ∧
    (seatAt c9Table 0).hasFolded = true ∧
    c9Rebuy.1 = true ∧
    (seatAt c9Rebuy.2 0).stack = 150 ∧ (seatAt c9Rebuy.2 0).buyIn = 140 := by decide

/-- C8: any five cards of ranks `A 2 3 4 5` whose suits are not all equal
evaluate to `STRAIGHT` with tiebreaker values `[5]` (the 5-high straight). -/
theorem aceLow_straight_recognized (s1 s2 s3 s4 s5 : Suit)
    (hns : ¬(s2 = s1 ∧ s3 = s1 ∧ s4 = s1 ∧ s5 = s1)) :
    (evaluateHand (aceLowCards s1 s2 s3 s4 s5)).rank = HandRank.STRAIGHT ∧
    (evaluateHand (aceLowCards s1 s2 s3 s4 s5)).values = [5] := by
  revert hns
  revert s1 s2 s3 s4 s5
  decide

/-- Witness for C8 at a concrete non-flush suit assignment. -/
theorem aceLow_straight_recognized_witness :
    (evaluateHand (aceLowCards .h .h .h .h .s)).rank = HandRank.STRAIGHT ∧
    (evaluateHand (aceLowCards .h .h .h .h .s)).values = [5] :=
  aceLow_straight_recognized .h .h .h .h .s (by decide)

/-- `getD` after `set` at the written index. -/
theorem getD_set_self (l : List α) (n : Nat) (a d : α) (h : n < l.length) :
    (l.set n a).getD n d = a := by
  simp [List.getD_eq_getElem?_getD, List.getElem?_set_self, h]

/-- `getD` after `set` at a different index. -/
theorem getD_set_other (l : List α) (n m : Nat) (a d : α) (h : m ≠ n) :
    (l.set n a).getD m d = l.getD m d := by
  simp [List.getD_eq_getElem?_getD, List.getElem?_set_ne (Ne.symm h)]

/-- `getD` through `map`, in range. -/
theorem getD_map_lt (l : List α) (f : α → β) (i : Nat) (d : β) (d' : α)
    (h : i < l.length) : (l.map f).getD i d = f (l.getD i d') := by
  simp [List.getD_eq_getElem?_getD, List.getElem?_eq_getElem, h]

/-- `seatAt` after `updSeatAt` at the written index. -/
theorem seatAt_updSeatAt_self (t : TableState) (n : Nat) (f : Seat → Seat)
    (h : n < t.seats.length) : seatAt (updSeatAt t n f) n = f (seatAt t n) :=
  getD_set_self t.seats n (f (seatAt t n)) (createEmptySeat n) h

/-- `seatAt` after `updSeatAt` at a different index. -/
theorem seatAt_updSeatAt_other (t : TableState) (n m : Nat) (f : Seat → Seat)
    (h : m ≠ n) : seatAt (updSeatAt t n f) m = seatAt t m :=
  getD_set_other t.seats n m (f (seatAt t n)) (createEmptySeat m) h

/-- C10: `seatAgent` has no between-hands precondition: on any table —
including one whose `currentHand` is live — seating an agent into an
in-range empty seat with a buy-in within `[minBuyIn, maxBuyIn]` succeeds,
leaves the seat with `stack = buyIn = b`, `isSittingOut = false`,
`hasFolded = false` and no hole cards, and leaves `currentHand` untouched;
the function takes no flag that could start the player sitting out. -/
theorem seatAgent_no_between_hands_precondition
    (t : TableState) (n : Nat) (agent : Agent) (b : Int)
    (hn : n < t.config.maxSeats)
    (hlen : t.config.maxSeats ≤ t.seats.length)
    (hempty : (seatAt t n).agent = none)
    (hmin : t.config.minBuyIn ≤ b) (hmax : b ≤ t.config.maxBuyIn) :
    (seatAgent t n agent b).1 = true ∧
    (seatAt (seatAgent t n agent b).2 n).agent = some agent ∧
    (seatAt (seatAgent t n agent b).2 n).stack = b ∧
    (seatAt (seatAgent t n agent b).2 n).buyIn = b ∧
    (seatAt (seatAgent t n agent b).2 n).isSittingOut = false ∧
    (seatAt (seatAgent t n agent b).2 n).hasFolded = false ∧
    (seatAt (seatAgent t n agent b).2 n).holeCards = [] ∧
    (seatAgent t n agent b).2.currentHand = t.currentHand := by
  have hnlt : n < t.seats.length := lt_of_lt_of_le hn hlen
  have h1 : ¬ n ≥ t.config.maxSeats := by omega
  have h2 : (seatAt t n).agent.isSome = false := by rw [hempty]; rfl
  have h3 : ¬ (b < t.config.minBuyIn ∨ b > t.config.maxBuyIn) := by omega
  have heq : seatAgent t n agent b = (true, updSeatAt t n (fun s =>
      { s with agent := some agent, stack := b, buyIn := b,
               isSittingOut := false, holeCards := [], currentBet := 0,
               hasActed := false, hasFolded := false, isAllIn := false })) := by
    unfold seatAgent
    rw [if_neg h1, h2]
    simp only [Bool.false_eq_true, if_false]
    rw [if_neg h3]
  have hupd := seatAt_updSeatAt_self t n (fun s =>
    { s with agent := some agent, stack := b, buyIn := b,
             isSittingOut := false, holeCards := [], currentBet := 0,
             hasActed := false, hasFolded := false, isAllIn := false }) hnlt
  rw [heq]
  refine ⟨rfl, ?_, ?_, ?_, ?_, ?_, ?_, rfl⟩ <;> rw [hupd]

/-- Witness for C10 on a table whose hand is live (flop). -/
theorem seatAgent_no_between_hands_precondition_witness :
    (c9Table.currentHand.any (fun h => h.phase != HandPhase.complete)) = true ∧
    (seatAgent c9Table 3 humanA 40).1 = true ∧
    (seatAt (seatAgent c9Table 3 humanA 40).2 3).isSittingOut = false ∧
    (seatAgent c9Table 3 humanA 40).2.currentHand = c9Table.currentHand := by
  have H := seatAgent_no_between_hands_precondition c9Table 3 humanA 40
    (by decide) (by decide) (by decide) (by decide) (by decide)
  exact ⟨by decide, H.1, H.2.2.2.2.1, H.2.2.2.2.2.2.2⟩

/-- C4: the tick loop's per-table guard (game-manager revision at
`src/unnamed/part_005`): when a hand is live and not at showdown (the guard
condition for the mid-hand abort), recovery returns every occupied seat's
in-round `currentBet` to that seat's stack, zeroes the bet, and clears
`currentHand`, so the chips committed to the current round are not lost. -/
theorem tick_guard_refunds_currentBets
    (t : TableState) (h : HandState)
    (hh : t.currentHand = some h) (hph : h.phase ≠ .showdown)
    (hbets : ∀ i, i < t.seats.length → 0 ≤ (seatAt t i).currentBet) :
    (tickGuardRecover t).currentHand = none ∧
    ∀ i, i < t.seats.length → (seatAt t i).agent.isSome = true →
      (seatAt (tickGuardRecover t) i).stack = (seatAt t i).stack + (seatAt t i).currentBet ∧
      (seatAt (tickGuardRecover t) i).currentBet = 0 := by
  have hcond : (t.currentHand.any (fun h => h.phase != HandPhase.showdown)) = true := by
    rw [hh]; simpa [Option.any] using hph
  have heq : tickGuardRecover t = { t with
      seats := t.seats.map (fun s =>
        if s.agent.isSome ∧ s.currentBet > 0 then
          { s with stack := s.stack + s.currentBet, currentBet := 0 }
        else s),
      currentHand := none } := by
    unfold tickGuardRecover
    rw [hcond]
    exact if_pos rfl
  rw [heq]
  refine ⟨rfl, ?_⟩
  intro i hi hag
  have hmap : seatAt { t with
      seats := t.seats.map (fun s =>
        if s.agent.isSome ∧ s.currentBet > 0 then
          { s with stack := s.stack + s.currentBet, currentBet := 0 }
        else s),
      currentHand := none } i =
      (fun s => if s.agent.isSome ∧ s.currentBet > 0 then
          { s with stack := s.stack + s.currentBet, currentBet := 0 }
        else s) (seatAt t i) := by
    unfold seatAt
    exact getD_map_lt t.seats _ i _ (createEmptySeat i) hi
  rw [hmap]
  by_cases hpos : (seatAt t i).currentBet > 0
  · simp [hag, hpos]
  · have hz : (seatAt t i).currentBet = 0 := le_antisymm (by omega) (hbets i hi)
    simp [hag, hpos, hz]

/-- Witness for C4 on the live-hand table `c4Table` (seat 1 has 10 chips in
the round). -/
theorem tick_guard_refunds_currentBets_witness :
    (tickGuardRecover c4Table).currentHand = none ∧
    (seatAt (tickGuardRecover c4Table) 1).stack =
      (seatAt c4Table 1).stack + (seatAt c4Table 1).currentBet ∧
    (seatAt (tickGuardRecover c4Table) 1).currentBet = 0 := by
  have H := tick_guard_refunds_currentBets c4Table
    { dummyHand with id := "h5", phase := .turn, currentBettingRound := .turn, pot := 35 }
    rfl (by decide) (by decide)
  exact ⟨H.1, (H.2 1 (by decide) (by decide)).1, (H.2 1 (by decide) (by decide)).2⟩

/-- C6: the leaderboard route's unrealized P/L for a seat whose table has an
in-progress hand equals the seat's current stack minus the recorded
hand-start stack, and differs from the session delta `stack − buyIn`
whenever the hand-start stack differs from the buy-in. -/
theorem leaderboard_unrealized_is_hand_start_delta
    (h : HandState) (seat : Seat) (a : Agent) (s0 : Int)
    (hag : seat.agent = some a) (hph : h.phase ≠ .complete)
    (hlk : h.startingStacks.lookup a.id = some s0) :
    seatUnrealizedPnL (some h) seat = seat.stack - s0 ∧
    (s0 ≠ seat.buyIn → seatUnrealizedPnL (some h) seat ≠ seat.stack - seat.buyIn) := by
  have heq : seatUnrealizedPnL (some h) seat = seat.stack - s0 := by
    unfold seatUnrealizedPnL
    rw [hag]
    simp [hph, hlk]
  refine ⟨heq, fun hne => ?_⟩
  rw [heq]
  intro hc
  omega

/-- Witness for C6: stack 55, hand-start stack 30, buy-in 40 — the
contribution is 25, not the session delta 15. -/
theorem leaderboard_unrealized_is_hand_start_delta_witness :
    seatUnrealizedPnL (some c6Hand) c6Seat = c6Seat.stack - 30 ∧
    seatUnrealizedPnL (some c6Hand) c6Seat ≠ c6Seat.stack - c6Seat.buyIn := by
  have H := leaderboard_unrealized_is_hand_start_delta c6Hand c6Seat humanA 30
    rfl (by decide) (by decide)
  exact ⟨H.1, H.2 (by decide)⟩

/-- C9 (amended): `rebuyAgent` succeeds exactly when the located seat is not
involved in a live hand (no uncompleted hand, or the seat has folded or sits
out) and the capped stack bound `stack + amount ≤ maxBuyIn` holds; success
adds exactly `amount` to the seat's stack and recorded buy-in, and any
rejection returns the table unchanged. -/
theorem rebuy_contract_amended
    (t : TableState) (aid : String) (amt : Int) (seat : Seat)
    (hfind : t.seats.find? (fun s =>
      match s.agent with | some a => a.id == aid | none => false) = some seat)
    (hwf : seatAt t seat.seatNumber = seat) (hlt : seat.seatNumber < t.seats.length) :
    ((rebuyAgent t aid amt).1 = true ↔
      ((t.currentHand.any (fun h => h.phase != .complete))
          && !seat.hasFolded && !seat.isSittingOut) = false ∧
      seat.stack + amt ≤ t.config.maxBuyIn) ∧
    ((rebuyAgent t aid amt).1 = true →
      (seatAt (rebuyAgent t aid amt).2 seat.seatNumber).stack = seat.stack + amt ∧
      (seatAt (rebuyAgent t aid amt).2 seat.seatNumber).buyIn = seat.buyIn + amt) ∧
    ((rebuyAgent t aid amt).1 = false → (rebuyAgent t aid amt).2 = t) := by
  have hstep : rebuyAgent t aid amt =
      (if ((t.currentHand.any (fun h => h.phase != .complete))
          && !seat.hasFolded && !seat.isSittingOut) = true then (false, t)
       else if seat.stack + amt > t.config.maxBuyIn then (false, t)
       else (true, updSeatAt t seat.seatNumber
         (fun s => { s with stack := s.stack + amt, buyIn := s.buyIn + amt }))) := by
    unfold rebuyAgent
    rw [hfind]
  rw [hstep]
  by_cases hmid : ((t.currentHand.any (fun h => h.phase != .complete))
      && !seat.hasFolded && !seat.isSittingOut) = true
  · rw [if_pos hmid]
    refine ⟨?_, ?_, ?_⟩
    · constructor
      · intro hc; simp at hc
      · intro hc
        rw [hmid] at hc
        exact absurd hc.1 (by decide)
    · intro hc; simp at hc
    · intro _; rfl
  · rw [if_neg hmid]
    by_cases hcap : seat.stack + amt > t.config.maxBuyIn
    · rw [if_pos hcap]
      refine ⟨?_, ?_, ?_⟩
      · constructor
        · intro hc; simp at hc
        · intro hc; omega
      · intro hc; simp at hc
      · intro _; rfl
    · rw [if_neg hcap]
      have hmid' : ((t.currentHand.any (fun h => h.phase != .complete))
          && !seat.hasFolded && !seat.isSittingOut) = false := by
        revert hmid
        cases ((t.currentHand.any (fun h => h.phase != .complete))
          && !seat.hasFolded && !seat.isSittingOut) <;> simp
      have hupd := seatAt_updSeatAt_self t seat.seatNumber
        (fun s => { s with stack := s.stack + amt, buyIn := s.buyIn + amt }) hlt
      refine ⟨?_, ?_, ?_⟩
      · constructor
        · intro _; exact ⟨hmid', by omega⟩
        · intro _; rfl
      · intro _
        constructor <;> rw [hupd, hwf]
      · intro hc; simp at hc

/-- Witness for C9 (amended): a folded seat rebuys 100 mid-hand on
`c9Table`, landing on stack 150 and buy-in 140. -/
theorem rebuy_contract_amended_witness :
    (rebuyAgent c9Table "agent_1_aa" 100).1 = true ∧
    (seatAt (rebuyAgent c9Table "agent_1_aa" 100).2 0).stack =
      (seatAt c9Table 0).stack + 100 ∧
    (seatAt (rebuyAgent c9Table "agent_1_aa" 100).2 0).buyIn =
      (seatAt c9Table 0).buyIn + 100 := by
  have H := rebuy_contract_amended c9Table "agent_1_aa" 100 (seatAt c9Table 0)
    (by decide) rfl (by decide)
  have hs : (rebuyAgent c9Table "agent_1_aa" 100).1 = true := H.1.mpr ⟨by decide, by decide⟩
  exact ⟨hs, (H.2.1 hs).1, (H.2.1 hs).2⟩

/-- `postAction` always reports success. -/
theorem postAction_fst (now : Nat) (st : GameSt) (n : Nat) (a : ActionType) :
    (postAction now st n a).1 = true := by
  unfold postAction
  dsimp only
  split <;> rfl

/-- Case analysis of `processActionCore`: either it rejects returning the
input state unchanged, or it succeeds and every turn/seat guard held. -/
theorem processActionCore_cases (now : Nat) (st : GameSt) (n : Nat) (act : ActionType)
    (amt : Option Int) :
    processActionCore now st n act amt = (false, st) ∨
    ((processActionCore now st n act amt).1 = true ∧
      getCurrentTurnSeat st.hand = some n ∧
      (seatAt st.table n).agent.isSome = true ∧
      (seatAt st.table n).hasFolded = false ∧
      (seatAt st.table n).isAllIn = false) := by
  unfold processActionCore
  split
  · exact Or.inl rfl
  · rename_i ct hct
    by_cases hne : ct ≠ n
    · rw [if_pos hne]
      exact Or.inl rfl
    · rw [if_neg hne]
      push_neg at hne
      subst hne
      by_cases hguard : ((seatAt st.table ct).agent.isNone || (seatAt st.table ct).hasFolded
          || (seatAt st.table ct).isAllIn) = true
      · rw [if_pos hguard]
        exact Or.inl rfl
      · rw [if_neg hguard]
        have hg : (seatAt st.table ct).agent.isNone = false ∧
            (seatAt st.table ct).hasFolded = false ∧
            (seatAt st.table ct).isAllIn = false := by
          revert hguard
          cases (seatAt st.table ct).agent.isNone <;>
            cases (seatAt st.table ct).hasFolded <;>
            cases (seatAt st.table ct).isAllIn <;> simp
        have hsome : (seatAt st.table ct).agent.isSome = true := by
          cases hag : (seatAt st.table ct).agent with
          | none => rw [hag] at hg; simp at hg
          | some a => rfl
        have hgoal : ∀ r : Bool × GameSt, r.1 = true →
            r = (false, st) ∨ (r.1 = true ∧ getCurrentTurnSeat st.hand = some ct ∧
              (seatAt st.table ct).agent.isSome = true ∧
              (seatAt st.table ct).hasFolded = false ∧
              (seatAt st.table ct).isAllIn = false) :=
          fun r hr => Or.inr ⟨hr, hct, hsome, hg.2.1, hg.2.2⟩
        cases act <;> dsimp only
        · exact hgoal _ (postAction_fst ..)
        · split
          · exact Or.inl rfl
          · exact hgoal _ (postAction_fst ..)
        · exact hgoal _ (postAction_fst ..)
        · split
          · exact Or.inl rfl
          · split
            · exact Or.inl rfl
            · exact hgoal _ (postAction_fst ..)
        · split
          · exact Or.inl rfl
          · split
            · exact Or.inl rfl
            · exact hgoal _ (postAction_fst ..)
        · exact hgoal _ (postAction_fst ..)

/-- C5: `processAction` returns `true` only if `seatNumber` was the current
turn seat at the moment of the call with that seat occupied, not folded and
not all-in; and whenever it returns `false` the entire table-and-hand state
is returned unchanged (stacks, bets, pot, flags and action log included). -/
theorem processAction_turn_legality_and_atomic_rejection
    (now : Nat) (st : GameSt) (n : Nat) (act : ActionType) (amt : Option Int) :
    ((processAction now st n act amt).1 = true →
      getCurrentTurnSeat st.hand = some n ∧
      (seatAt st.table n).agent.isSome = true ∧
      (seatAt st.table n).hasFolded = false ∧
      (seatAt st.table n).isAllIn = false) ∧
    ((processAction now st n act amt).1 = false →
      (processAction now st n act amt).2 = st) := by
  have hc := processActionCore_cases now st n
    (if act = .bet ∧ st.hand.currentBettingRound = .preflop then .raise else act) amt
  have heq : processAction now st n act amt = processActionCore now st n
      (if act = .bet ∧ st.hand.currentBettingRound = .preflop then .raise else act) amt := rfl
  rw [heq]
  rcases hc with h | h
  · rw [h]
    exact ⟨fun hx => by simp at hx, fun _ => rfl⟩
  · refine ⟨fun _ => ⟨h.2.1, h.2.2.1, h.2.2.2.1, h.2.2.2.2⟩, fun hx => ?_⟩
    rw [h.1] at hx
    simp at hx

/-- Witness for C5: a successful all-in by the turn seat in the `c1Table`
hand implies the turn guard, and a rejected action by a non-turn seat
leaves the state untouched. -/
theorem processAction_turn_legality_and_atomic_rejection_witness :
    getCurrentTurnSeat c1St.hand = some 0 ∧
    (processAction 1001 c1St 5 .fold none).2 = c1St := by
  have H := processAction_turn_legality_and_atomic_rejection 1001 c1St 0 .allin none
  have H2 := processAction_turn_legality_and_atomic_rejection 1001 c1St 5 .fold none
  exact ⟨(H.1 (by decide)).1, H2.2 (by decide)⟩

/-- `updSeatAt` preserves the seat count. -/
theorem updSeatAt_seats_length (t : TableState) (n : Nat) (f : Seat → Seat) :
    (updSeatAt t n f).seats.length = t.seats.length := by
  simp [updSeatAt]

/-- A table seat read in range is a member of the seat list. -/
theorem seatAt_mem (t : TableState) (i : Nat) (hi : i < t.seats.length) :
    seatAt t i ∈ t.seats := by
  unfold seatAt
  rw [List.getD_eq_getElem?_getD, List.getElem?_eq_getElem hi]
  exact List.getElem_mem ..

/-- Two distinct members force length at least two. -/
theorem mem_mem_ne_two_le {α} {l : List α} {a b : α}
    (ha : a ∈ l) (hb : b ∈ l) (hne : a ≠ b) : 2 ≤ l.length := by
  induction l with
  | nil => cases ha
  | cons x xs ih =>
    rcases List.mem_cons.mp ha with rfl | ha'
    · rcases List.mem_cons.mp hb with rfl | hb'
      · exact absurd rfl hne
      · have : 1 ≤ xs.length := List.length_pos.mpr (List.ne_nil_of_mem hb')
        simp only [List.length_cons]
        omega
    · have : 1 ≤ xs.length := List.length_pos.mpr (List.ne_nil_of_mem ha')
      simp only [List.length_cons]
      omega

/-- Effect of the `resetActedForNewBet` fold on an in-range seat: seats in
the order other than the raiser get `hasActed := false`; everything else is
untouched. -/
theorem resetActed_foldl_seatAt (l : List Nat) (t : TableState) (r i : Nat)
    (hi : i < t.seats.length) :
    seatAt (l.foldl (fun tb sn =>
      if sn ≠ r then updSeatAt tb sn (fun s => { s with hasActed := false }) else tb) t) i =
    (if i ∈ l ∧ i ≠ r then { seatAt t i with hasActed := false } else seatAt t i) := by
  induction l generalizing t with
  | nil => simp
  | cons sn l' ih =>
    simp only [List.foldl_cons]
    by_cases hsn : sn ≠ r
    · rw [if_pos hsn]
      have hlen : i < (updSeatAt t sn (fun s => { s with hasActed := false })).seats.length := by
        rw [updSeatAt_seats_length]; exact hi
      rw [ih _ hlen]
      by_cases hisn : i = sn
      · subst hisn
        rw [seatAt_updSeatAt_self t i (fun s => { s with hasActed := false }) hi]
        by_cases hil : i ∈ l'
        · simp [hil, hsn, List.mem_cons]
        · simp [hil, hsn, List.mem_cons]
      · rw [seatAt_updSeatAt_other t sn i (fun s => { s with hasActed := false }) hisn]
        by_cases hil : i ∈ l'
        · by_cases hir : i = r
          · simp [hil, hir, List.mem_cons]
          · simp [hil, hir, List.mem_cons]
        · by_cases hir : i = r
          · simp [hil, hisn, hir, List.mem_cons]
          · simp [hil, hisn, hir, List.mem_cons]
    · rw [if_neg hsn]
      push_neg at hsn
      subst hsn
      rw [ih _ hi]
      by_cases hil : i ∈ l'
      · simp [hil, List.mem_cons]
      · by_cases hisn : i = sn
        · subst hisn
          simp [hil, List.mem_cons]
        · simp [hil, hisn, List.mem_cons]

/-- The `resetActedForNewBet` fold preserves the seat count. -/
theorem resetActed_foldl_length (l : List Nat) (t : TableState) (r : Nat) :
    (l.foldl (fun tb sn =>
      if sn ≠ r then updSeatAt tb sn (fun s => { s with hasActed := false }) else tb)
      t).seats.length = t.seats.length := by
  induction l generalizing t with
  | nil => rfl
  | cons sn l' ih =>
    simp only [List.foldl_cons]
    by_cases hsn : sn ≠ r
    · rw [if_pos hsn, ih, updSeatAt_seats_length]
    · rw [if_neg hsn, ih]

/-- A raising all-in reduces to `allinResult`. -/
theorem processActionCore_allin_eq
    (now : Nat) (st : GameSt) (n : Nat)
    (hturn : getCurrentTurnSeat st.hand = some n)
    (hagent : (seatAt st.table n).agent.isSome = true)
    (hnfold : (seatAt st.table n).hasFolded = false)
    (hnallin : (seatAt st.table n).isAllIn = false)
    (hraise : st.hand.currentBet < (seatAt st.table n).currentBet + (seatAt st.table n).stack) :
    processActionCore now st n .allin none = allinResult now st n := by
  have hnone : (seatAt st.table n).agent.isNone = false := by
    cases hag : (seatAt st.table n).agent with
    | none => rw [hag] at hagent; simp at hagent
    | some a => rfl
  have hguard : ((seatAt st.table n).agent.isNone || (seatAt st.table n).hasFolded
      || (seatAt st.table n).isAllIn) = false := by
    rw [hnone, hnfold, hnallin]
    rfl
  have hgne : ¬ (((seatAt st.table n).agent.isNone || (seatAt st.table n).hasFolded
      || (seatAt st.table n).isAllIn) = true) := by
    rw [hguard]
    decide
  unfold processActionCore allinResult
  rw [hturn]
  change (if n ≠ n then (false, st) else _) = _
  rw [if_neg (fun hh => hh rfl)]
  change (if ((seatAt st.table n).agent.isNone || (seatAt st.table n).hasFolded
      || (seatAt st.table n).isAllIn) = true then (false, st) else _) = _
  rw [if_neg hgne]
  dsimp only
  rw [if_pos hraise]

/-- `syncHand` only re-points `currentHand`; the seats are untouched. -/
theorem syncHand_table_seats (st : GameSt) : (syncHand st).table.seats = st.table.seats := by
  unfold syncHand
  split <;> rfl

/-- `syncHand` never alters the hand. -/
theorem syncHand_hand (st : GameSt) : (syncHand st).hand = st.hand := by
  unfold syncHand
  split <;> rfl

/-- When at least two players remain in the hand and some ordered seat can
still act after the action, `postAction` takes the advance path: it marks
the acting seat `hasActed`, appends the audit record, and moves the turn —
leaving seats otherwise as given and the hand's `minRaise`, order and pot
unchanged. -/
theorem postAction_advance
    (now : Nat) (st : GameSt) (n : Nat) (a : ActionType)
    (hlen2 : 2 ≤ (getPlayersStillInHand
      (updSeatAt st.table n (fun s => { s with hasActed := true }))).length)
    (hcan : st.hand.activePlayerOrder.filter (fun sn =>
        !(seatAt (updSeatAt st.table n (fun s => { s with hasActed := true })) sn).hasFolded
        && !(seatAt (updSeatAt st.table n (fun s => { s with hasActed := true })) sn).isAllIn
        && !(seatAt (updSeatAt st.table n (fun s => { s with hasActed := true })) sn).hasActed)
      ≠ []) :
    (postAction now st n a).2.table.seats =
      (updSeatAt st.table n (fun s => { s with hasActed := true })).seats ∧
    (postAction now st n a).2.hand.minRaise = st.hand.minRaise ∧
    (postAction now st n a).2.hand.currentBet = st.hand.currentBet ∧
    (postAction now st n a).2.hand.pot = st.hand.pot ∧
    (postAction now st n a).2.hand.activePlayerOrder = st.hand.activePlayerOrder := by
  unfold postAction
  dsimp only
  cases hpl : getPlayersStillInHand
      (updSeatAt st.table n (fun s => { s with hasActed := true })) with
  | nil =>
    rw [hpl] at hlen2
    simp at hlen2
  | cons w tail =>
    cases tail with
    | nil =>
      rw [hpl] at hlen2
      simp at hlen2
    | cons w2 tail2 =>
      unfold advanceAction
      dsimp only
      cases hca : st.hand.activePlayerOrder.filter (fun sn =>
          !(seatAt (updSeatAt st.table n (fun s => { s with hasActed := true })) sn).hasFolded
          && !(seatAt (updSeatAt st.table n (fun s => { s with hasActed := true })) sn).isAllIn
          && !(seatAt (updSeatAt st.table n (fun s => { s with hasActed := true })) sn).hasActed) with
      | nil => exact absurd hca hcan
      | cons c rest =>
        rw [syncHand_table_seats, syncHand_hand]
        exact ⟨rfl, rfl, rfl, rfl, rfl⟩

/-- `seatAt` only depends on the seat list. -/
theorem seatAt_of_seats_eq (t1 t2 : TableState) (h : t1.seats = t2.seats) (i : Nat) :
    seatAt t1 i = seatAt t2 i := by
  unfold seatAt
  rw [h]

/-- C3 (amended): whenever a seat's all-in total exceeds `hand.currentBet`
and at least one other ordered seat can still act, the all-in is accepted
and the `hasActed` flag of every other seat in the betting order is reset to
`false` regardless of the raise size — a short all-in also reopens the
action — while `minRaise` is updated only when the raise size is at least
the previous `minRaise`. -/
theorem allin_above_currentBet_always_reopens
    (now : Nat) (st : GameSt) (n m0 : Nat)
    (hturn : getCurrentTurnSeat st.hand = some n)
    (hnlt : n < st.table.seats.length)
    (hagent : (seatAt st.table n).agent.isSome = true)
    (hnsit : (seatAt st.table n).isSittingOut = false)
    (hnfold : (seatAt st.table n).hasFolded = false)
    (hnallin : (seatAt st.table n).isAllIn = false)
    (hraise : st.hand.currentBet < (seatAt st.table n).currentBet + (seatAt st.table n).stack)
    (hm0 : m0 ∈ st.hand.activePlayerOrder) (hm0n : m0 ≠ n)
    (hm0lt : m0 < st.table.seats.length)
    (hm0agent : (seatAt st.table m0).agent.isSome = true)
    (hm0sit : (seatAt st.table m0).isSittingOut = false)
    (hm0fold : (seatAt st.table m0).hasFolded = false)
    (hm0allin : (seatAt st.table m0).isAllIn = false)
    (hwfn : (seatAt st.table n).seatNumber = n)
    (hwfm : (seatAt st.table m0).seatNumber = m0) :
    (processAction now st n .allin none).1 = true ∧
    (∀ m, m ∈ st.hand.activePlayerOrder → m ≠ n → m < st.table.seats.length →
      (seatAt (processAction now st n .allin none).2.table m).hasActed = false) ∧
    (processAction now st n .allin none).2.hand.minRaise =
      (if (seatAt st.table n).currentBet + (seatAt st.table n).stack - st.hand.currentBet
          ≥ st.hand.minRaise
       then (seatAt st.table n).currentBet + (seatAt st.table n).stack - st.hand.currentBet
       else st.hand.minRaise) := by
  have hPA : processAction now st n .allin none = processActionCore now st n .allin none := rfl
  rw [hPA, processActionCore_allin_eq now st n hturn hagent hnfold hnallin hraise]
  unfold allinResult
  dsimp only
  -- Names for the intermediate states of the all-in branch.
  set tA := updSeatAt st.table n (fun s => { s with stack := 0, isAllIn := true }) with htA
  set h1 := { st.hand with
    pot := st.hand.pot + (seatAt st.table n).stack,
    minRaise := if (seatAt st.table n).currentBet + (seatAt st.table n).stack
        - st.hand.currentBet ≥ st.hand.minRaise
      then (seatAt st.table n).currentBet + (seatAt st.table n).stack - st.hand.currentBet
      else st.hand.minRaise,
    currentBet := (seatAt st.table n).currentBet + (seatAt st.table n).stack } with hh1
  set st1 := resetActedForNewBet ⟨tA, h1⟩ n with hst1
  set t2 := updSeatAt st1.table n
    (fun s => { s with currentBet := (seatAt st.table n).currentBet + (seatAt st.table n).stack })
    with ht2
  set t3 := updSeatAt t2 n (fun s => { s with hasActed := true }) with ht3
  -- Lengths are preserved throughout.
  have hlen1 : st1.table.seats.length = st.table.seats.length := by
    rw [hst1]
    unfold resetActedForNewBet
    dsimp only
    rw [resetActed_foldl_length, htA, updSeatAt_seats_length]
  have hlen2t : t2.seats.length = st.table.seats.length := by
    rw [ht2, updSeatAt_seats_length, hlen1]
  have hlen3t : t3.seats.length = st.table.seats.length := by
    rw [ht3, updSeatAt_seats_length, hlen2t]
  -- Seat characterizations.
  have hseat1 : ∀ m, m ≠ n → m < st.table.seats.length →
      seatAt st1.table m = (if m ∈ st.hand.activePlayerOrder
        then { seatAt st.table m with hasActed := false } else seatAt st.table m) := by
    intro m hmn hmlt
    rw [hst1]
    unfold resetActedForNewBet
    dsimp only
    have hmltA : m < tA.seats.length := by rw [htA, updSeatAt_seats_length]; exact hmlt
    rw [resetActed_foldl_seatAt _ tA n m hmltA, htA,
      seatAt_updSeatAt_other st.table n m _ hmn]
    by_cases hmem : m ∈ st.hand.activePlayerOrder
    · rw [if_pos ⟨hmem, hmn⟩, if_pos hmem]
    · rw [if_neg (fun hc => hmem hc.1), if_neg hmem]
  have hseat3m : ∀ m, m ≠ n → m < st.table.seats.length →
      seatAt t3 m = (if m ∈ st.hand.activePlayerOrder
        then { seatAt st.table m with hasActed := false } else seatAt st.table m) := by
    intro m hmn hmlt
    rw [ht3, seatAt_updSeatAt_other t2 n m _ hmn, ht2,
      seatAt_updSeatAt_other st1.table n m _ hmn]
    exact hseat1 m hmn hmlt
  have hseat1n : seatAt st1.table n = { seatAt st.table n with stack := 0, isAllIn := true } := by
    rw [hst1]
    unfold resetActedForNewBet
    dsimp only
    have hnltA : n < tA.seats.length := by rw [htA, updSeatAt_seats_length]; exact hnlt
    rw [resetActed_foldl_seatAt _ tA n n hnltA,
      if_neg (fun hc => hc.2 rfl), htA, seatAt_updSeatAt_self st.table n _ hnlt]
  have hseat3n : seatAt t3 n =
      { seatAt st.table n with
        stack := 0,
        isAllIn := true,
        currentBet := (seatAt st.table n).currentBet + (seatAt st.table n).stack,
        hasActed := true } := by
    have hnlt2 : n < t2.seats.length := by rw [hlen2t]; exact hnlt
    have hnlt1 : n < st1.table.seats.length := by rw [hlen1]; exact hnlt
    rw [ht3, seatAt_updSeatAt_self t2 n _ hnlt2, ht2,
      seatAt_updSeatAt_self st1.table n _ hnlt1, hseat1n]
  -- Both the all-in seat and the witness seat remain in the hand.
  have hmemn : seatAt t3 n ∈ getPlayersStillInHand t3 := by
    apply List.mem_filter.mpr
    refine ⟨List.mem_filter.mpr ⟨seatAt_mem t3 n (by rw [hlen3t]; exact hnlt), ?_⟩, ?_⟩
    · rw [hseat3n]
      simp only
      rw [hnsit]
      simp [hagent]
    · rw [hseat3n]
      simp only
      rw [hnfold]
      rfl
  have hseat3m0 : seatAt t3 m0 = { seatAt st.table m0 with hasActed := false } := by
    rw [hseat3m m0 hm0n hm0lt, if_pos hm0]
  have hmemm0 : seatAt t3 m0 ∈ getPlayersStillInHand t3 := by
    apply List.mem_filter.mpr
    refine ⟨List.mem_filter.mpr ⟨seatAt_mem t3 m0 (by rw [hlen3t]; exact hm0lt), ?_⟩, ?_⟩
    · rw [hseat3m0]
      simp only
      rw [hm0sit]
      simp [hm0agent]
    · rw [hseat3m0]
      simp only
      rw [hm0fold]
      rfl
  have hne3 : seatAt t3 n ≠ seatAt t3 m0 := by
    intro hc
    have := congrArg Seat.seatNumber hc
    rw [hseat3n, hseat3m0] at this
    simp only at this
    rw [hwfn, hwfm] at this
    exact hm0n this.symm
  have hlen2 : 2 ≤ (getPlayersStillInHand t3).length :=
    mem_mem_ne_two_le hmemn hmemm0 hne3
  have hcan : h1.activePlayerOrder.filter (fun sn =>
      !(seatAt t3 sn).hasFolded && !(seatAt t3 sn).isAllIn && !(seatAt t3 sn).hasActed)
      ≠ [] := by
    apply List.ne_nil_of_mem (a := m0)
    apply List.mem_filter.mpr
    refine ⟨?_, ?_⟩
    · rw [hh1]
      exact hm0
    · rw [hseat3m0]
      simp only
      rw [hm0fold, hm0allin]
      rfl
  have HPA := postAction_advance now ⟨t2, h1⟩ n .allin
    (by exact hlen2) (by exact hcan)
  rw [show st1.hand = h1 from rfl]
  refine ⟨postAction_fst .., ?_, ?_⟩
  · intro m hm hmn hmlt
    have hseq := seatAt_of_seats_eq (postAction now ⟨t2, h1⟩ n .allin).2.table t3
      (by rw [HPA.1]) m
    rw [hseq, hseat3m m hmn hmlt, if_pos hm]
  · rw [HPA.2.1]

/-- Witness for C3 (amended) on the `c3Table` scenario: seat 2's short
all-in (raise size 10 < `minRaise` 28) is accepted and resets seat 1's
`hasActed`, leaving `minRaise` at 28. -/
theorem allin_above_currentBet_always_reopens_witness :
    (processAction 2003 c3CallB.2 2 .allin none).1 = true ∧
    (seatAt (processAction 2003 c3CallB.2 2 .allin none).2.table 1).hasActed = false ∧
    (processAction 2003 c3CallB.2 2 .allin none).2.hand.minRaise =
      (if (seatAt c3CallB.2.table 2).currentBet + (seatAt c3CallB.2.table 2).stack
          - c3CallB.2.hand.currentBet ≥ c3CallB.2.hand.minRaise
       then (seatAt c3CallB.2.table 2).currentBet + (seatAt c3CallB.2.table 2).stack
          - c3CallB.2.hand.currentBet
       else c3CallB.2.hand.minRaise) := by
  have H := allin_above_currentBet_always_reopens 2003 c3CallB.2 2 1
    (by decide) (by decide) (by decide) (by decide) (by decide) (by decide)
    (by decide) (by decide) (by decide) (by decide) (by decide) (by decide)
    (by decide) (by decide) (by decide) (by decide)
  exact ⟨H.1, H.2.1 1 (by decide) (by decide) (by decide), H.2.2⟩

/-- Filtering a list is filtering its index range and reading the elements
back (the default function is irrelevant at in-range indices). -/
theorem filter_eq_map_filter_range (l : List Seat) (p : Seat → Bool) (dflt : Nat → Seat) :
    l.filter p = ((List.range l.length).filter (fun i => p (l.getD i (dflt i)))).map
      (fun i => l.getD i (dflt i)) := by
  induction l generalizing dflt with
  | nil => rfl
  | cons x xs ih =>
    simp only [List.length_cons, List.range_succ_eq_map, List.filter_cons, List.map_cons,
      List.getD_cons_zero, List.filter_map, List.map_map, Function.comp_def,
      List.getD_cons_succ]
    by_cases hp : p x
    · simp only [hp, if_true, List.map_cons, List.getD_cons_zero, List.map_map,
        Function.comp_def, List.getD_cons_succ, Nat.succ_eq_add_one]
      exact congrArg (List.cons x) (ih (fun i => dflt (i + 1)))
    · simp only [hp, Bool.false_eq_true, if_false, List.map_map,
        Function.comp_def, List.getD_cons_succ, Nat.succ_eq_add_one]
      exact ih (fun i => dflt (i + 1))

/-- `getActiveSeats` is the active index list read back through `seatAt`. -/
theorem getActiveSeats_eq_map_activePos (t : TableState) :
    getActiveSeats t = (activePos t).map (fun i => seatAt t i) :=
  filter_eq_map_filter_range t.seats _ createEmptySeat

/-- The clockwise scan visits `[p+1, …, max-1]` followed by `[0, …, p]`. -/
theorem posList_eq (max p : Nat) (hp : p < max) :
    posList max p = (List.range max).drop (p + 1) ++ (List.range max).take (p + 1) := by
  apply List.ext_getElem
  · simp [posList]
    omega
  · intro i h1 h2
    have hlen : i < max := by simpa [posList] using h1
    have hL : (posList max p)[i] = (p + 1 + i) % max := by
      simp [posList]
    rw [hL]
    by_cases hcase : i < max - (p + 1)
    · rw [List.getElem_append_left (by simpa using hcase)]
      have : p + 1 + i < max := by omega
      rw [List.getElem_drop, List.getElem_range]
      exact Nat.mod_eq_of_lt this
    · have hle : max ≤ p + 1 + i := by omega
      have hsub : (p + 1 + i) % max = p + 1 + i - max := by
        rw [Nat.mod_eq_sub_mod hle]
        exact Nat.mod_eq_of_lt (by omega)
      rw [List.getElem_append_right (by simpa using hcase)]
      rw [List.getElem_take, List.getElem_range]
      simp only [List.length_drop, List.length_range]
      omega

/-- The clockwise scan is a permutation of all seat indices. -/
theorem posList_perm_range (max p : Nat) (hp : p < max) :
    (posList max p).Perm (List.range max) := by
  rw [posList_eq max p hp]
  calc ((List.range max).drop (p + 1) ++ (List.range max).take (p + 1)).Perm
        ((List.range max).take (p + 1) ++ (List.range max).drop (p + 1)) :=
        List.perm_append_comm
    _ = List.range max := List.take_append_drop _ _

/-- The clockwise scan has no duplicate indices. -/
theorem posList_nodup (max p : Nat) (hp : p < max) : (posList max p).Nodup :=
  ((posList_perm_range max p hp).nodup_iff).mpr (List.nodup_range max)

/-- The scan from `p` decomposes as the other indices followed by `p` itself. -/
theorem posList_decomp (max p : Nat) (hp : p < max) :
    posList max p = ((List.range max).drop (p + 1) ++ List.range p) ++ [p] := by
  have ht : (List.range max).take (p + 1) = List.range p ++ [p] := by
    rw [List.take_range, Nat.min_eq_left (by omega), List.range_succ]
  rw [posList_eq max p hp, ht]
  exact (List.append_assoc _ _ _).symm

/-- Membership in a dropped range. -/
theorem mem_drop_range {n k x : Nat} (h1 : k ≤ x) (h2 : x < n) :
    x ∈ (List.range n).drop k := by
  have hidx : x - k < ((List.range n).drop k).length := by
    simp only [List.length_drop, List.length_range]
    omega
  have : ((List.range n).drop k)[x - k] = x := by
    rw [List.getElem_drop, List.getElem_range]
    omega
  exact this ▸ List.getElem_mem hidx

/-- Elements of a dropped range are bounded below and above. -/
theorem of_mem_drop_range {n k x : Nat} (h : x ∈ (List.range n).drop k) :
    k ≤ x ∧ x < n := by
  obtain ⟨i, hi, hx⟩ := List.mem_iff_getElem.mp h
  rw [List.getElem_drop, List.getElem_range] at hx
  have := hi
  simp only [List.length_drop, List.length_range] at this
  omega

/-- `find?` returns the unique element satisfying the predicate. -/
theorem find_eq_of_unique {p : Nat → Bool} {l : List Nat} {b : Nat}
    (hb : b ∈ l) (hpb : p b = true) (huniq : ∀ x ∈ l, p x = true → x = b) :
    l.find? p = some b := by
  induction l with
  | nil => cases hb
  | cons x xs ih =>
    by_cases hpx : p x = true
    · have hxb : x = b := huniq x (List.mem_cons_self x xs) hpx
      subst hxb
      exact List.find?_cons_of_pos _ hpx
    · have hbx : b ∈ xs := by
        rcases List.mem_cons.mp hb with rfl | h'
        · exact absurd hpb hpx
        · exact h'
      rw [List.find?_cons_of_neg _ (by simpa using hpx)]
      exact ih hbx (fun x hx hp => huniq x (List.mem_cons_of_mem _ hx) hp)

/-- `filter` of a duplicate-free list whose predicate holds exactly once. -/
theorem filter_eq_singleton {p : Nat → Bool} {l : List Nat} {b : Nat}
    (hnd : l.Nodup) (hb : b ∈ l) (hpb : p b = true)
    (huniq : ∀ x ∈ l, p x = true → x = b) : l.filter p = [b] := by
  induction l with
  | nil => cases hb
  | cons x xs ih =>
    obtain ⟨hnx, hnxs⟩ := List.nodup_cons.mp hnd
    by_cases hpx : p x = true
    · have hxb : x = b := huniq x (List.mem_cons_self x xs) hpx
      subst hxb
      have hnone : xs.filter p = [] := by
        rw [List.filter_eq_nil_iff]
        intro y hy hpy
        exact hnx ((huniq y (List.mem_cons_of_mem _ hy) (by simpa using hpy)) ▸ hy)
      simp [List.filter_cons, hpx, hnone]
    · have hbx : b ∈ xs := by
        rcases List.mem_cons.mp hb with rfl | h'
        · exact absurd hpb hpx
        · exact h'
      rw [List.filter_cons_of_neg (by simpa using hpx)]
      exact ih hnxs hbx (fun x hx hp => huniq x (List.mem_cons_of_mem _ hx) hp)

/-- When exactly the two seats `a` and `b` are active, the clockwise scan
after `a` finds `b`. -/
theorem getNextActiveSeat_pair (t : TableState) (a b : Nat)
    (ha : a < t.config.maxSeats) (hb : b < t.config.maxSeats) (hab : a ≠ b)
    (hact : ∀ x, x < t.config.maxSeats →
      (isActiveIdx t x = true ↔ (x = a ∨ x = b))) :
    getNextActiveSeat t a = some b := by
  unfold getNextActiveSeat
  rw [posList_decomp t.config.maxSeats a ha, List.find?_append]
  have hmem : b ∈ (List.range t.config.maxSeats).drop (a + 1) ++ List.range a := by
    rcases Nat.lt_or_ge a b with hlt | hge
    · exact List.mem_append_left _ (mem_drop_range hlt hb)
    · have : b < a := lt_of_le_of_ne hge (Ne.symm hab)
      exact List.mem_append_right _ (List.mem_range.mpr this)
  have hfst : ((List.range t.config.maxSeats).drop (a + 1) ++
      List.range a).find? (isActiveIdx t) = some b := by
    apply find_eq_of_unique hmem ((hact b hb).mpr (Or.inr rfl))
    intro x hx hpx
    have hxr : x < t.config.maxSeats ∧ x ≠ a := by
      rcases List.mem_append.mp hx with h' | h'
      · obtain ⟨h1, h2⟩ := of_mem_drop_range h'
        exact ⟨h2, by omega⟩
      · have := List.mem_range.mp h'
        exact ⟨by omega, by omega⟩
    rcases (hact x hxr.1).mp hpx with rfl | rfl
    · exact absurd rfl hxr.2
    · rfl
  rw [hfst]
  rfl

/-- When exactly the two seats `a` and `b` can bet, the betting order built
after `a` is `[b, a]`. -/
theorem buildBettingOrder_pair (t : TableState) (a b : Nat)
    (ha : a < t.config.maxSeats) (hb : b < t.config.maxSeats) (hab : a ≠ b)
    (hact : ∀ x, x < t.config.maxSeats →
      (canBetIdx t x = true ↔ (x = a ∨ x = b))) :
    buildBettingOrder t a = [b, a] := by
  unfold buildBettingOrder
  have hnd : (posList t.config.maxSeats a).Nodup := posList_nodup _ _ ha
  rw [posList_decomp t.config.maxSeats a ha] at hnd ⊢
  rw [List.filter_append]
  have hmem : b ∈ (List.range t.config.maxSeats).drop (a + 1) ++ List.range a := by
    rcases Nat.lt_or_ge a b with hlt | hge
    · exact List.mem_append_left _ (mem_drop_range hlt hb)
    · have : b < a := lt_of_le_of_ne hge (Ne.symm hab)
      exact List.mem_append_right _ (List.mem_range.mpr this)
  have hfst : ((List.range t.config.maxSeats).drop (a + 1) ++
      List.range a).filter (canBetIdx t) = [b] := by
    apply filter_eq_singleton (List.Nodup.sublist (List.sublist_append_left _ _) hnd)
      hmem ((hact b hb).mpr (Or.inr rfl))
    intro x hx hpx
    have hxr : x < t.config.maxSeats ∧ x ≠ a := by
      rcases List.mem_append.mp hx with h' | h'
      · obtain ⟨h1, h2⟩ := of_mem_drop_range h'
        exact ⟨h2, by omega⟩
      · have := List.mem_range.mp h'
        exact ⟨by omega, by omega⟩
    rcases (hact x hxr.1).mp hpx with rfl | rfl
    · exact absurd rfl hxr.2
    · rfl
  rw [hfst]
  have hsnd : [a].filter (canBetIdx t) = [a] := by
    simp [List.filter_cons, (hact a ha).mpr (Or.inl rfl)]
  rw [hsnd]
  rfl

/-- The clockwise scan only depends on the start position modulo the seat
count. -/
theorem posList_mod (max p : Nat) : posList max p = posList max (p % max) := by
  unfold posList
  apply List.map_congr_left
  intro i _
  rw [Nat.add_assoc, Nat.add_assoc, Nat.mod_add_mod]

theorem getNextActiveSeat_mem_pair (t : TableState) (a b p : Nat)
    (ha : a < t.config.maxSeats) (hb : b < t.config.maxSeats)
    (hact : ∀ x, x < t.config.maxSeats →
      (isActiveIdx t x = true ↔ (x = a ∨ x = b))) :
    getNextActiveSeat t p = some a ∨ getNextActiveSeat t p = some b := by
  have hmax : 0 < t.config.maxSeats := lt_of_le_of_lt (Nat.zero_le a) ha
  have hq : p % t.config.maxSeats < t.config.maxSeats := Nat.mod_lt _ hmax
  unfold getNextActiveSeat
  rw [posList_mod]
  have hperm := posList_perm_range t.config.maxSeats (p % t.config.maxSeats) hq
  have hamem : a ∈ posList t.config.maxSeats (p % t.config.maxSeats) :=
    hperm.mem_iff.mpr (List.mem_range.mpr ha)
  cases hf : (posList t.config.maxSeats (p % t.config.maxSeats)).find? (isActiveIdx t) with
  | none =>
    exact absurd ((hact a ha).mpr (Or.inl rfl))
      (by simpa using List.find?_eq_none.mp hf a hamem)
  | some x =>
    have hxm : x ∈ posList t.config.maxSeats (p % t.config.maxSeats) :=
      List.mem_of_find?_eq_some hf
    have hxa : isActiveIdx t x = true := List.find?_some hf
    have hxlt : x < t.config.maxSeats := List.mem_range.mp (hperm.mem_iff.mp hxm)
    rcases (hact x hxlt).mp hxa with rfl | rfl
    · exact Or.inl rfl
    · exact Or.inr rfl

set_option maxHeartbeats 1000000 in
/-- C7 (amended): heads-up blind positions and order.  On any table whose
seat numbers match their indices and with exactly two active seats `d` and
`o`, both able to cover both blinds, `startHand` picks one of them as the
dealer (the first active seat on a fresh table, the next active seat after
the previous dealer otherwise), assigns the small blind to the dealer seat,
the big blind to the other active seat, and the preflop `activePlayerOrder`
is `[dealer, bigBlind]` — dealer (SB) first, BB last. -/
theorem headsUp_dealer_is_sb_and_order
    (t : TableState) (deck : List Card) (now : Nat) (hid : String) (d o : Nat)
    (hlen : t.seats.length = t.config.maxSeats)
    (hwf : ∀ i, i < t.seats.length → (seatAt t i).seatNumber = i)
    (hapos : activePos t = [d, o])
    (hsbd : t.config.smallBlind < (seatAt t d).stack)
    (hsbo : t.config.smallBlind < (seatAt t o).stack)
    (hbbd : t.config.bigBlind < (seatAt t d).stack)
    (hbbo : t.config.bigBlind < (seatAt t o).stack) :
    ∃ st a b, ((a = d ∧ b = o) ∨ (a = o ∧ b = d)) ∧
      startHand t deck now hid = some st ∧
      st.hand.dealerSeatNumber = a ∧
      st.hand.smallBlindSeatNumber = a ∧
      st.hand.bigBlindSeatNumber = b ∧
      st.hand.activePlayerOrder = [a, b] := by
  have hdmem : d ∈ activePos t := by rw [hapos]; exact List.mem_cons_self _ _
  have homem : o ∈ activePos t := by
    rw [hapos]; exact List.mem_cons_of_mem _ (List.mem_cons_self _ _)
  have hdf : d ∈ List.range t.seats.length ∧ isActiveIdx t d = true := by
    have h' := hdmem; unfold activePos at h'; exact List.mem_filter.mp h'
  have hof : o ∈ List.range t.seats.length ∧ isActiveIdx t o = true := by
    have h' := homem; unfold activePos at h'; exact List.mem_filter.mp h'
  have hdlen : d < t.seats.length := List.mem_range.mp hdf.1
  have holen : o < t.seats.length := List.mem_range.mp hof.1
  have hdmax : d < t.config.maxSeats := hlen ▸ hdlen
  have homax : o < t.config.maxSeats := hlen ▸ holen
  have hnodup : (activePos t).Nodup := by
    unfold activePos; exact (List.nodup_range _).filter _
  have hdo : d ≠ o := by
    rw [hapos] at hnodup
    simp only [List.nodup_cons, List.mem_singleton] at hnodup
    exact hnodup.1
  have hactT : ∀ x, x < t.config.maxSeats →
      (isActiveIdx t x = true ↔ (x = d ∨ x = o)) := by
    intro x hx
    constructor
    · intro hpx
      have hxm : x ∈ activePos t := by
        unfold activePos
        exact List.mem_filter.mpr ⟨List.mem_range.mpr (hlen ▸ hx), hpx⟩
      rw [hapos] at hxm
      simpa using hxm
    · rintro (rfl | rfl)
      · exact hdf.2
      · exact hof.2
  have hA : getActiveSeats t = [seatAt t d, seatAt t o] := by
    rw [getActiveSeats_eq_map_activePos, hapos]
    rfl
  have hsn : (seatAt t d).seatNumber = d := hwf d hdlen
  have hon : (seatAt t o).seatNumber = o := hwf o holen
  unfold startHand
  rw [hA]
  dsimp only
  simp only [List.length_cons, List.length_nil, List.map_cons, List.map_nil, hsn, hon,
    List.headD_cons, List.foldl_cons, List.foldl_nil, Option.getD_some, if_true, and_self,
    Nat.zero_add]
  rw [if_neg (by omega : ¬ (1 + 1 < 2))]
  generalize hL : startHand.match_1 (fun _ => Nat) t.currentHand
    (fun h => h.dealerSeatNumber)
    (fun _ => (Option.map (fun h => h.dealerSeatNumber) t.handHistory.getLast?).getD 0) = L
  generalize hDe : (if t.currentHand.isNone = true ∧ t.handHistory.isEmpty = true then d
    else (getNextActiveSeat t L).getD d) = D
  obtain ⟨a, b, hab, hD⟩ : ∃ a b, ((a = d ∧ b = o) ∨ (a = o ∧ b = d)) ∧ D = a := by
    by_cases hfresh : t.currentHand.isNone = true ∧ t.handHistory.isEmpty = true
    · exact ⟨d, o, Or.inl ⟨rfl, rfl⟩, by rw [← hDe, if_pos hfresh]⟩
    · rcases getNextActiveSeat_mem_pair t d o L hdmax homax hactT with h | h
      · exact ⟨d, o, Or.inl ⟨rfl, rfl⟩, by rw [← hDe, if_neg hfresh, h]; rfl⟩
      · exact ⟨o, d, Or.inr ⟨rfl, rfl⟩, by rw [← hDe, if_neg hfresh, h]; rfl⟩
  rw [hD]
  have hane : a ≠ b := by
    rcases hab with ⟨rfl, rfl⟩ | ⟨rfl, rfl⟩
    · exact hdo
    · exact Ne.symm hdo
  have halen : a < t.seats.length := by
    rcases hab with ⟨rfl, rfl⟩ | ⟨rfl, rfl⟩
    · exact hdlen
    · exact holen
  have hblen : b < t.seats.length := by
    rcases hab with ⟨rfl, rfl⟩ | ⟨rfl, rfl⟩
    · exact holen
    · exact hdlen
  have hamax : a < t.config.maxSeats := hlen ▸ halen
  have hbmax : b < t.config.maxSeats := hlen ▸ hblen
  have hsna : (seatAt t a).seatNumber = a := hwf a halen
  have hsnb : (seatAt t b).seatNumber = b := hwf b hblen
  have hsba : t.config.smallBlind < (seatAt t a).stack := by
    rcases hab with ⟨rfl, rfl⟩ | ⟨rfl, rfl⟩
    · exact hsbd
    · exact hsbo
  have hbbb : t.config.bigBlind < (seatAt t b).stack := by
    rcases hab with ⟨rfl, rfl⟩ | ⟨rfl, rfl⟩
    · exact hbbo
    · exact hbbd
  have hact2 : ∀ x, x < t.config.maxSeats →
      (isActiveIdx t x = true ↔ (x = a ∨ x = b)) := by
    intro x hx
    rcases hab with ⟨rfl, rfl⟩ | ⟨rfl, rfl⟩
    · exact hactT x hx
    · exact (hactT x hx).trans or_comm
  have hnexta : getNextActiveSeat t a = some b :=
    getNextActiveSeat_pair t a b hamax hbmax hane hact2
  rw [hnexta]
  simp only [Option.getD_some]
  generalize hT1 : ({
    config := t.config,
    seats := List.map (fun s =>
      { seatNumber := s.seatNumber, agent := s.agent, stack := s.stack,
        holeCards := [], isSittingOut := s.isSittingOut, currentBet := 0,
        hasActed := false, hasFolded := false, isAllIn := false,
        buyIn := s.buyIn }) t.seats,
    currentHand := t.currentHand, handHistory := t.handHistory,
    handCount := t.handCount } : TableState) = T1
  generalize hg0 : (fun (s : Seat) =>
    ({
      seatNumber := s.seatNumber, agent := s.agent, stack := s.stack,
      holeCards := [deck.getD 0 dfltCard, deck.getD 1 dfltCard],
      isSittingOut := s.isSittingOut, currentBet := s.currentBet,
      hasActed := s.hasActed, hasFolded := s.hasFolded, isAllIn := s.isAllIn,
      buyIn := s.buyIn } : Seat)) = G0
  generalize hg1 : (fun (s : Seat) =>
    ({
      seatNumber := s.seatNumber, agent := s.agent, stack := s.stack,
      holeCards := [deck.getD 2 dfltCard, deck.getD (2 + 1) dfltCard],
      isSittingOut := s.isSittingOut, currentBet := s.currentBet,
      hasActed := s.hasActed, hasFolded := s.hasFolded, isAllIn := s.isAllIn,
      buyIn := s.buyIn } : Seat)) = G1
  generalize hT2 : updSeatAt (updSeatAt T1 d G0) o G1 = T2
  have hlenT1 : T1.seats.length = t.seats.length := by
    rw [← hT1]; exact List.length_map _ _
  have hlenT2 : T2.seats.length = t.seats.length := by
    rw [← hT2, updSeatAt_seats_length, updSeatAt_seats_length, hlenT1]
  have hseatT1 : ∀ i, i < t.seats.length → seatAt T1 i =
      { seatAt t i with holeCards := [], currentBet := 0, hasActed := false,
                        hasFolded := false, isAllIn := false } := by
    intro i hi
    rw [← hT1]
    show (List.map _ t.seats).getD i (createEmptySeat i) = _
    rw [getD_map_lt t.seats _ i (createEmptySeat i) (createEmptySeat i) hi]
    rfl
  have hseatT2d : seatAt T2 d = { seatAt t d with
      holeCards := [deck.getD 0 dfltCard, deck.getD 1 dfltCard],
      currentBet := 0, hasActed := false, hasFolded := false, isAllIn := false } := by
    rw [← hT2, seatAt_updSeatAt_other _ o d _ hdo,
      seatAt_updSeatAt_self _ d _ (by rw [hlenT1]; exact hdlen), ← hg0,
      hseatT1 d hdlen]
  have hseatT2o : seatAt T2 o = { seatAt t o with
      holeCards := [deck.getD 2 dfltCard, deck.getD (2 + 1) dfltCard],
      currentBet := 0, hasActed := false, hasFolded := false, isAllIn := false } := by
    rw [← hT2,
      seatAt_updSeatAt_self _ o _ (by rw [updSeatAt_seats_length, hlenT1]; exact holen),
      seatAt_updSeatAt_other _ d o _ (Ne.symm hdo), ← hg1, hseatT1 o holen]
  have hs2a : ∃ hc, seatAt T2 a = { seatAt t a with
      holeCards := hc, currentBet := 0, hasActed := false,
      hasFolded := false, isAllIn := false } := by
    rcases hab with ⟨rfl, rfl⟩ | ⟨rfl, rfl⟩
    · exact ⟨_, hseatT2d⟩
    · exact ⟨_, hseatT2o⟩
  have hs2b : ∃ hc, seatAt T2 b = { seatAt t b with
      holeCards := hc, currentBet := 0, hasActed := false,
      hasFolded := false, isAllIn := false } := by
    rcases hab with ⟨rfl, rfl⟩ | ⟨rfl, rfl⟩
    · exact ⟨_, hseatT2o⟩
    · exact ⟨_, hseatT2d⟩
  have hmin1 : t.config.smallBlind ⊓ (seatAt T2 a).stack = t.config.smallBlind := by
    obtain ⟨hc, h2⟩ := hs2a
    rw [h2]
    exact inf_eq_left.mpr (le_of_lt hsba)
  rw [hmin1]
  generalize hFSB : (fun (s : Seat) =>
    ({
      seatNumber := s.seatNumber, agent := s.agent,
      stack := s.stack - t.config.smallBlind, holeCards := s.holeCards,
      isSittingOut := s.isSittingOut, currentBet := t.config.smallBlind,
      hasActed := s.hasActed, hasFolded := s.hasFolded,
      isAllIn := if s.stack - t.config.smallBlind = 0 then true else s.isAllIn,
      buyIn := s.buyIn } : Seat)) = FSB
  generalize hT3 : updSeatAt T2 a FSB = T3
  have hlenT3 : T3.seats.length = t.seats.length := by
    rw [← hT3, updSeatAt_seats_length, hlenT2]
  have hs3b : ∃ hc, seatAt T3 b = { seatAt t b with
      holeCards := hc, currentBet := 0, hasActed := false,
      hasFolded := false, isAllIn := false } := by
    obtain ⟨hc, h2⟩ := hs2b
    exact ⟨hc, by rw [← hT3, seatAt_updSeatAt_other _ a b _ (Ne.symm hane), h2]⟩
  have hmin2 : t.config.bigBlind ⊓ (seatAt T3 b).stack = t.config.bigBlind := by
    obtain ⟨hc, h3⟩ := hs3b
    rw [h3]
    exact inf_eq_left.mpr (le_of_lt hbbb)
  simp only [hmin2]
  generalize hFBB : (fun (s : Seat) =>
    ({
      seatNumber := s.seatNumber, agent := s.agent,
      stack := s.stack - t.config.bigBlind, holeCards := s.holeCards,
      isSittingOut := s.isSittingOut, currentBet := t.config.bigBlind,
      hasActed := s.hasActed, hasFolded := s.hasFolded,
      isAllIn := if s.stack - t.config.bigBlind = 0 then true else s.isAllIn,
      buyIn := s.buyIn } : Seat)) = FBB
  generalize hT4 : updSeatAt T3 b FBB = T4
  simp only [lt_self_iff_false, if_false]
  have hlenT4 : T4.seats.length = t.seats.length := by
    rw [← hT4, updSeatAt_seats_length, hlenT3]
  have hcfg4 : T4.config = t.config := by
    rw [← hT4, ← hT3, ← hT2, ← hT1]
    rfl
  have h4a : ∃ hc, seatAt T4 a = { seatAt t a with
      holeCards := hc,
      stack := (seatAt t a).stack - t.config.smallBlind,
      currentBet := t.config.smallBlind,
      hasActed := false, hasFolded := false, isAllIn := false } := by
    obtain ⟨hc, h2⟩ := hs2a
    refine ⟨hc, ?_⟩
    rw [← hT4, seatAt_updSeatAt_other _ b a _ hane, ← hT3,
      seatAt_updSeatAt_self _ a _ (by rw [hlenT2]; exact halen), h2, ← hFSB]
    dsimp only
    rw [if_neg (by omega : ¬ ((seatAt t a).stack - t.config.smallBlind = 0))]
  have h4b : ∃ hc, seatAt T4 b = { seatAt t b with
      holeCards := hc,
      stack := (seatAt t b).stack - t.config.bigBlind,
      currentBet := t.config.bigBlind,
      hasActed := false, hasFolded := false, isAllIn := false } := by
    obtain ⟨hc, h3⟩ := hs3b
    refine ⟨hc, ?_⟩
    rw [← hT4, seatAt_updSeatAt_self _ b _ (by rw [hlenT3]; exact hblen), h3, ← hFBB]
    dsimp only
    rw [if_neg (by omega : ¬ ((seatAt t b).stack - t.config.bigBlind = 0))]
  have h4x : ∀ x, x ≠ d → x ≠ o → x < t.seats.length → seatAt T4 x =
      { seatAt t x with holeCards := [], currentBet := 0, hasActed := false,
                        hasFolded := false, isAllIn := false } := by
    intro x hxd hxo hx
    have hxab : x ≠ a ∧ x ≠ b := by
      rcases hab with ⟨rfl, rfl⟩ | ⟨rfl, rfl⟩
      · exact ⟨hxd, hxo⟩
      · exact ⟨hxo, hxd⟩
    rw [← hT4, seatAt_updSeatAt_other _ b x _ hxab.2, ← hT3,
      seatAt_updSeatAt_other _ a x _ hxab.1, ← hT2,
      seatAt_updSeatAt_other _ o x _ hxo, seatAt_updSeatAt_other _ d x _ hxd,
      hseatT1 x hx]
  have had : (seatAt t d).agent.isSome = true ∧ (seatAt t d).isSittingOut = false := by
    have h' := hdf.2
    unfold isActiveIdx at h'
    simpa using h'
  have hao : (seatAt t o).agent.isSome = true ∧ (seatAt t o).isSittingOut = false := by
    have h' := hof.2
    unfold isActiveIdx at h'
    simpa using h'
  have haa : (seatAt t a).agent.isSome = true ∧ (seatAt t a).isSittingOut = false := by
    rcases hab with ⟨rfl, rfl⟩ | ⟨rfl, rfl⟩
    · exact had
    · exact hao
  have hba : (seatAt t b).agent.isSome = true ∧ (seatAt t b).isSittingOut = false := by
    rcases hab with ⟨rfl, rfl⟩ | ⟨rfl, rfl⟩
    · exact hao
    · exact had
  obtain ⟨hca, h4a'⟩ := h4a
  obtain ⟨hcb2, h4b'⟩ := h4b
  have hcfgmax : T4.config.maxSeats = t.config.maxSeats := by rw [hcfg4]
  have hcb : ∀ x, x < T4.config.maxSeats →
      (canBetIdx T4 x = true ↔ (x = b ∨ x = a)) := by
    intro x hx
    rw [hcfgmax] at hx
    have hxlen : x < t.seats.length := hlen ▸ hx
    by_cases hxa : x = a
    · subst hxa
      simp [canBetIdx, h4a', haa.1, haa.2]
    · by_cases hxb : x = b
      · subst hxb
        simp [canBetIdx, h4b', hba.1, hba.2]
      · have hxdo : x ≠ d ∧ x ≠ o := by
          rcases hab with ⟨rfl, rfl⟩ | ⟨rfl, rfl⟩
          · exact ⟨hxa, hxb⟩
          · exact ⟨hxb, hxa⟩
        have hfalse : ¬ (isActiveIdx t x = true) := by
          intro h
          rcases (hactT x hx).mp h with rfl | rfl
          · exact hxdo.1 rfl
          · exact hxdo.2 rfl
        have hIA : isActiveIdx t x = false := Bool.eq_false_iff.mpr hfalse
        unfold isActiveIdx at hIA
        simp [canBetIdx, h4x x hxdo.1 hxdo.2 hxlen, hIA, hxa, hxb]
  have horder : buildBettingOrder T4 b = [a, b] :=
    buildBettingOrder_pair T4 b a (hcfgmax ▸ hbmax) (hcfgmax ▸ hamax)
      (Ne.symm hane) hcb
  rw [horder]
  generalize hH : ({
    id := hid, handNumber := t.handCount + 1, phase := HandPhase.preflop,
    communityCards := [],
    pot := t.config.smallBlind + t.config.bigBlind, sidePots := [],
    actions :=
      [{
        agentId := agentIdAt T4 a, agentName := agentNameAt T4 a, seatNumber := a,
        action := ActionType.bet, amount := t.config.smallBlind,
        round := BettingRound.preflop, timestamp := now },
       {
        agentId := agentIdAt T4 b, agentName := agentNameAt T4 b, seatNumber := b,
        action := ActionType.bet, amount := t.config.bigBlind,
        round := BettingRound.preflop, timestamp := now }],
    currentBettingRound := BettingRound.preflop, currentPlayerIndex := 0,
    activePlayerOrder := [a, b], dealerSeatNumber := a, smallBlindSeatNumber := a,
    bigBlindSeatNumber := b, currentBet := t.config.bigBlind,
    minRaise := t.config.bigBlind,
    winners := [], startedAt := now, completedAt := none, lastActionAt := now,
    privDeck := List.drop (2 + 2) deck, privDeckIndex := 0,
    startingStacks :=
      [(agentIdAt T1 d, (seatAt T1 d).stack),
       (agentIdAt T1 o, (seatAt T1 o).stack)] } : HandState) = H
  have hcanu : ∀ (u : TableState), u.seats = T4.seats →
      ¬ ((getPlayersWhoCanAct u).length ≤ 1) := by
    intro u hu
    have hsa : seatAt u a = seatAt T4 a := seatAt_of_seats_eq _ _ hu a
    have hsb2 : seatAt u b = seatAt T4 b := seatAt_of_seats_eq _ _ hu b
    have hau : a < u.seats.length := by rw [hu, hlenT4]; exact halen
    have hbu : b < u.seats.length := by rw [hu, hlenT4]; exact hblen
    have ham : seatAt u a ∈ getPlayersWhoCanAct u := by
      unfold getPlayersWhoCanAct getActiveSeats
      refine List.mem_filter.mpr ⟨List.mem_filter.mpr ⟨seatAt_mem u a hau, ?_⟩, ?_⟩
      · rw [hsa, h4a']
        simp [haa.1, haa.2]
      · rw [hsa, h4a']
        rfl
    have hbm : seatAt u b ∈ getPlayersWhoCanAct u := by
      unfold getPlayersWhoCanAct getActiveSeats
      refine List.mem_filter.mpr ⟨List.mem_filter.mpr ⟨seatAt_mem u b hbu, ?_⟩, ?_⟩
      · rw [hsb2, h4b']
        simp [hba.1, hba.2]
      · rw [hsb2, h4b']
        rfl
    have hne : seatAt u a ≠ seatAt u b := by
      intro he
      have hnum : (seatAt u a).seatNumber = (seatAt u b).seatNumber := by rw [he]
      rw [hsa, hsb2, h4a', h4b'] at hnum
      dsimp only at hnum
      rw [hsna, hsnb] at hnum
      exact hane hnum
    have := mem_mem_ne_two_le ham hbm hne
    omega
  rw [if_neg (hcanu ({
    config := T4.config, seats := T4.seats, currentHand := some H,
    handHistory := T4.handHistory, handCount := t.handCount + 1 } : TableState) rfl)]
  refine ⟨_, a, b, hab, rfl, ?_, ?_, ?_, ?_⟩ <;> rw [syncHand_hand] <;> rw [show ({
    table := {
      config := T4.config, seats := T4.seats, currentHand := some H,
      handHistory := T4.handHistory, handCount := t.handCount + 1 },
    hand := H } : GameSt).hand = H from rfl, ← hH]

/-- Witness for C7 (amended): instantiated both on the fresh table
`c1Table` (first hand) and on the mid-session table `c7RotTable` (dealer
rotation path). -/
theorem headsUp_dealer_is_sb_and_order_witness :
    (activePos c1Table = [0, 1] ∧
      ∃ st a b, ((a = 0 ∧ b = 1) ∨ (a = 1 ∧ b = 0)) ∧
        startHand c1Table deck9 1000 "h1" = some st ∧
        st.hand.dealerSeatNumber = a ∧ st.hand.smallBlindSeatNumber = a ∧
        st.hand.bigBlindSeatNumber = b ∧ st.hand.activePlayerOrder = [a, b]) ∧
    (c7RotTable.currentHand.isSome = true ∧ activePos c7RotTable = [0, 1] ∧
      ∃ st a b, ((a = 0 ∧ b = 1) ∨ (a = 1 ∧ b = 0)) ∧
        startHand c7RotTable deck9 5000 "h5" = some st ∧
        st.hand.dealerSeatNumber = a ∧ st.hand.smallBlindSeatNumber = a ∧
        st.hand.bigBlindSeatNumber = b ∧ st.hand.activePlayerOrder = [a, b]) :=
  ⟨⟨by decide, headsUp_dealer_is_sb_and_order c1Table deck9 1000 "h1" 0 1
    (by decide) (by decide) (by decide) (by decide) (by decide) (by decide)
    (by decide)⟩,
   ⟨by decide, by decide, headsUp_dealer_is_sb_and_order c7RotTable deck9 5000 "h5" 0 1
    (by decide) (by decide) (by decide) (by decide) (by decide) (by decide)
    (by decide)⟩⟩
